import Mathlib

/-!
Verification of the InventorLoader document-component decoder (`importerDC.py`,
`Import_IPT.py`) against its natural-language specification.

The byte-level decoders of `importerDC.py` are embedded shallowly: a byte
buffer is a `List Nat` (each element an octet), every read returns
`Option (value × nextOffset)` where `none` models the fatal "read past the
end of the buffer" decode error, and the decoded record is a `DCNode`
carrying the open attribute map.  Helper modules of the repository that are
not part of the analysed sources (`importerUtils`, `importerSegNode`,
`importerSegment`, `importerReader`, `olefile`) are modelled from the spec;
each such definition carries a doc comment starting `Modelled from the
spec:`.  Everything else follows `importerDC.py` / `Import_IPT.py` line by
line.
-/

/-- Modelled from the spec: little-endian 16-bit word assembled from two
octets of the buffer (Primitive Codec, `importerUtils`, not in src). -/
def le16 (data : List Nat) (i : Nat) : Nat :=
  data.getD i 0 + 256 * data.getD (i + 1) 0

/-- Modelled from the spec: little-endian 32-bit word assembled from four
octets of the buffer (Primitive Codec, `importerUtils`, not in src). -/
def le32 (data : List Nat) (i : Nat) : Nat :=
  data.getD i 0 + 256 * data.getD (i + 1) 0 + 65536 * data.getD (i + 2) 0 +
    16777216 * data.getD (i + 3) 0

/-- Modelled from the spec: little-endian 64-bit word assembled from eight
octets; used as the raw bit pattern of an IEEE754 float64. -/
def le64 (data : List Nat) (i : Nat) : Nat :=
  le32 data i + 4294967296 * le32 data (i + 4)

/-- Modelled from the spec: `importerUtils.getUInt8` — read one octet and
advance by 1; reading past the end of the buffer is a fatal decode error
(`none`). -/
def getUInt8 (data : List Nat) (offset : Nat) : Option (Nat × Nat) :=
  if offset + 1 ≤ data.length then some (data.getD offset 0, offset + 1) else none

/-- Modelled from the spec: `importerUtils.getUInt16` — read a little-endian
16-bit unsigned integer and advance by 2. -/
def getUInt16 (data : List Nat) (offset : Nat) : Option (Nat × Nat) :=
  if offset + 2 ≤ data.length then some (le16 data offset, offset + 2) else none

/-- Modelled from the spec: `importerUtils.getUInt32` — read a little-endian
32-bit unsigned integer and advance by 4. -/
def getUInt32 (data : List Nat) (offset : Nat) : Option (Nat × Nat) :=
  if offset + 4 ≤ data.length then some (le32 data offset, offset + 4) else none

/-- Modelled from the spec: two's-complement reinterpretation of a 16-bit
word as a signed integer. -/
def toSigned16 (v : Nat) : Int :=
  if v < 32768 then (v : Int) else (v : Int) - 65536

/-- Modelled from the spec: two's-complement reinterpretation of a 32-bit
word as a signed integer. -/
def toSigned32 (v : Nat) : Int :=
  if v < 2147483648 then (v : Int) else (v : Int) - 4294967296

/-- Modelled from the spec: `importerUtils.getSInt16`. -/
def getSInt16 (data : List Nat) (offset : Nat) : Option (Int × Nat) :=
  (getUInt16 data offset).map (fun p => (toSigned16 p.1, p.2))

/-- Modelled from the spec: `importerUtils.getSInt32`. -/
def getSInt32 (data : List Nat) (offset : Nat) : Option (Int × Nat) :=
  (getUInt32 data offset).map (fun p => (toSigned32 p.1, p.2))

/-- Modelled from the spec: `importerUtils.getFloat64` — an IEEE754 float64
is an 8-byte little-endian record; we keep its raw bit pattern, which is all
the verified claims depend on. -/
def getFloat64 (data : List Nat) (offset : Nat) : Option (Nat × Nat) :=
  if offset + 8 ≤ data.length then some (le64 data offset, offset + 8) else none

/-- Modelled from the spec: a UUID is a 16-byte fixed record; we keep its
bytes. -/
def getUUIDBytes (data : List Nat) (offset : Nat) : Option (List Nat × Nat) :=
  if offset + 16 ≤ data.length then
    some ((data.drop offset).take 16, offset + 16)
  else none

/-- The three reference kinds of the Reference Model (spec §4.2):
parent link, child link, cross-reference. -/
inductive NodeRefType where
  | parent
  | child
  | cross
deriving DecidableEq, Repr

/-- Modelled from the spec: `importerSegNode.NodeRef` (not in src) — a
reference encoded as a (sequence-number, segment-local-index) pair of 16-bit
words, plus the kind and the list position (`number`) it was read at. -/
structure NodeRef where
  seq : Nat
  index : Nat
  type : NodeRefType
  number : Nat
deriving DecidableEq, Repr

/-- The tagged-union attribute value stored in a node's open attribute map
(spec §3: integers, floats, booleans, UUIDs, strings, arrays, reference
lists, key-value maps). -/
inductive Value where
  | vU8 (v : Nat)
  | vU16 (v : Nat)
  | vU32 (v : Nat)
  | vS16 (v : Int)
  | vS32 (v : Int)
  | vF64 (bits : Nat)
  | vBool (b : Bool)
  | vText (s : String)
  | vUuid (bytes : List Nat)
  | vU16Arr (vs : List Nat)
  | vU32Arr (vs : List Nat)
  | vEnum (v : Nat)
  | vRef (r : Option NodeRef)
  | vRefList (rs : List (Option NodeRef))
  | vRefU32List (rs : List (Option NodeRef × Nat))
  | vRefF64List (rs : List (Option NodeRef × Nat))
deriving DecidableEq, Repr

/-- Ordered string-keyed attribute lookup (first binding wins; `DCNode.set`
prepends, so the lookup sees the latest assignment, matching Python's dict
update). -/
def getAttr : List (String × Value) → String → Option Value
  | [], _ => none
  | (a, v) :: rest, name => if a = name then some v else getAttr rest name

/-- The generic decoded record (spec §3 Node): a type label, an interpreted
name, the two visibility flags derived by `ReadContentHeader`, the open
attribute map, and the queue of references recorded for the post-pass
(`childIndexes`).  The node's byte buffer is passed separately to every
read, mirroring `node.data`. -/
structure DCNode where
  typeName : String := ""
  name : String := ""
  visible : Bool := false
  dimensioningVisible : Bool := false
  attrs : List (String × Value) := []
  childIndexes : List NodeRef := []
deriving DecidableEq, Repr

/-- `node.set(name, value)` — Python dict update, modelled by prepending. -/
def DCNode.set (node : DCNode) (name : String) (v : Value) : DCNode :=
  { node with attrs := (name, v) :: node.attrs }

/-- `node.get(name)`. -/
def DCNode.get (node : DCNode) (name : String) : Option Value :=
  getAttr node.attrs name

/-- The 32-bit word stored under `name`, or 0 when absent (the decoders only
call this right after storing the word). -/
def DCNode.getU32 (node : DCNode) (name : String) : Nat :=
  match node.get name with
  | some (Value.vU32 v) => v
  | _ => 0

/-- A fresh node, before any decoder ran. -/
def initNode : DCNode := {}

/-- The type key attached to a node by `getNodeType` (`importerSegment`, not
in src): either a UUID — of which the decoders only use the low 32 bits
`time_low` — or a plain 32-bit tag. -/
inductive SegTypeID where
  | uuid (timeLow : Nat)
  | raw (v : Nat)
deriving DecidableEq, Repr

/-- The byte-by-byte forward scan of `DCReader.setNodeData`
(importerDC.py:63-68): read the 32-bit marker at `i`; while it differs from
the declared size and `i < len(data)`, advance `i` by one byte and re-read.
The first argument is the loop's remaining iteration budget, instantiated
with `data.length - i`, which the guard `i < data.length` makes exact; a
read past the end of the buffer is the fatal codec error `none`. -/
def sizeScanAux (data : List Nat) (size : Nat) : Nat → Nat → Option Nat
  | 0, i =>
    match getUInt32 data i with
    | none => none
    | some (s, _) =>
      if s = size then some i
      else if i < data.length then none
      else some i
  | rem + 1, i =>
    match getUInt32 data i with
    | none => none
    | some (s, _) =>
      if s = size then some i
      else if i < data.length then sizeScanAux data size rem (i + 1)
      else some i

/-- The scan entry point: budget `data.length - i` covers every iteration
the guard `i < len(data)` permits. -/
def sizeScan (data : List Nat) (size : Nat) (i : Nat) : Option Nat :=
  sizeScanAux data size (data.length - i) i

/-- Python's clamping slice `data[offset : offset + size]`. -/
def listSlice (data : List Nat) (offset size : Nat) : List Nat :=
  (data.drop offset).take size

/-- `DCReader.setNodeData` (importerDC.py:51-72): resolve the node's type
key; for UUID keys whose `time_low` is 0x2B48A42B or 0x90874D63, when the
32-bit marker at `offset + size` disagrees with the declared size, run the
self-correcting forward scan and replace the size by the scanned distance.
Returns the final node size together with the byte slice stored into
`node.data`; `none` models a fatal primitive read past the buffer end. -/
def setNodeData (data : List Nat) (offset size : Nat) (tid : SegTypeID) :
    Option (Nat × List Nat) :=
  match getUInt8 data (offset - 4) with
  | none => none
  | some _ =>
    match tid with
    | SegTypeID.uuid tl =>
      match getUInt32 data (offset + size) with
      | none => none
      | some (s, _) =>
        if s ≠ size ∧ (tl = 0x2B48A42B ∨ tl = 0x90874D63) then
          match sizeScan data size (offset + size) with
          | none => none
          | some i => some (i - offset, listSlice data offset (i - offset))
        else some (size, listSlice data offset size)
    | SegTypeID.raw _ => some (size, listSlice data offset size)

/-- Modelled from the spec: `AbstractNode.ReadUInt8` (`importerSegNode`, not
in src) — read the field and store it under `name`. -/
def readU8 (data : List Nat) (node : DCNode) (i : Nat) (name : String) :
    Option (DCNode × Nat) :=
  (getUInt8 data i).map (fun p => (node.set name (Value.vU8 p.1), p.2))

/-- Modelled from the spec: `AbstractNode.ReadUInt16`. -/
def readU16 (data : List Nat) (node : DCNode) (i : Nat) (name : String) :
    Option (DCNode × Nat) :=
  (getUInt16 data i).map (fun p => (node.set name (Value.vU16 p.1), p.2))

/-- Modelled from the spec: `AbstractNode.ReadUInt32`. -/
def readU32 (data : List Nat) (node : DCNode) (i : Nat) (name : String) :
    Option (DCNode × Nat) :=
  (getUInt32 data i).map (fun p => (node.set name (Value.vU32 p.1), p.2))

/-- Modelled from the spec: `AbstractNode.ReadSInt16`. -/
def readS16 (data : List Nat) (node : DCNode) (i : Nat) (name : String) :
    Option (DCNode × Nat) :=
  (getSInt16 data i).map (fun p => (node.set name (Value.vS16 p.1), p.2))

/-- Modelled from the spec: `AbstractNode.ReadSInt32`. -/
def readS32 (data : List Nat) (node : DCNode) (i : Nat) (name : String) :
    Option (DCNode × Nat) :=
  (getSInt32 data i).map (fun p => (node.set name (Value.vS32 p.1), p.2))

/-- Modelled from the spec: `AbstractNode.ReadFloat64` — the value kept is
the raw bit pattern. -/
def readF64 (data : List Nat) (node : DCNode) (i : Nat) (name : String) :
    Option (DCNode × Nat) :=
  (getFloat64 data i).map (fun p => (node.set name (Value.vF64 p.1), p.2))

/-- Modelled from the spec: `AbstractNode.ReadBoolean` — one octet, nonzero
means true. -/
def readBoolean (data : List Nat) (node : DCNode) (i : Nat) (name : String) :
    Option (DCNode × Nat) :=
  (getUInt8 data i).map (fun p => (node.set name (Value.vBool (0 < p.1)), p.2))

/-- Modelled from the spec: `AbstractNode.ReadEnum16` — a 16-bit value
interpreted through an enumeration table; the raw value is kept. -/
def readEnum16 (data : List Nat) (node : DCNode) (i : Nat) (name : String) :
    Option (DCNode × Nat) :=
  (getUInt16 data i).map (fun p => (node.set name (Value.vEnum p.1), p.2))

/-- Modelled from the spec: `AbstractNode.ReadUUID` — a 16-byte fixed
record. -/
def readUUID (data : List Nat) (node : DCNode) (i : Nat) (name : String) :
    Option (DCNode × Nat) :=
  (getUUIDBytes data i).map (fun p => (node.set name (Value.vUuid p.1), p.2))

/-- Modelled from the spec: fixed-width array of `n` 32-bit words
(`getUInt32A`). -/
def getU32Arr (data : List Nat) : Nat → Nat → Option (List Nat × Nat)
  | i, 0 => some ([], i)
  | i, n + 1 =>
    match getUInt32 data i with
    | none => none
    | some (v, j) =>
      match getU32Arr data j n with
      | none => none
      | some (vs, k) => some (v :: vs, k)

/-- Modelled from the spec: fixed-width array of `n` 16-bit words
(`getUInt16A`). -/
def getU16Arr (data : List Nat) : Nat → Nat → Option (List Nat × Nat)
  | i, 0 => some ([], i)
  | i, n + 1 =>
    match getUInt16 data i with
    | none => none
    | some (v, j) =>
      match getU16Arr data j n with
      | none => none
      | some (vs, k) => some (v :: vs, k)

/-- Modelled from the spec: `AbstractNode.ReadUInt32A`. -/
def readU32A (data : List Nat) (node : DCNode) (i : Nat) (n : Nat)
    (name : String) : Option (DCNode × Nat) :=
  (getU32Arr data i n).map (fun p => (node.set name (Value.vU32Arr p.1), p.2))

/-- Modelled from the spec: `AbstractNode.ReadUInt16A`. -/
def readU16A (data : List Nat) (node : DCNode) (i : Nat) (n : Nat)
    (name : String) : Option (DCNode × Nat) :=
  (getU16Arr data i n).map (fun p => (node.set name (Value.vU16Arr p.1), p.2))

/-- Modelled from the spec: UTF-16LE decoding of `n` 16-bit units
(`Len32Text16` payload). -/
def utf16leChars (data : List Nat) : Nat → Nat → List Char
  | _, 0 => []
  | i, n + 1 => Char.ofNat (le16 data i) :: utf16leChars data (i + 2) n

/-- Modelled from the spec: `getLen32Text16` — a 32-bit character count
followed by that many UTF-16LE code units. -/
def getLen32Text16 (data : List Nat) (offset : Nat) : Option (String × Nat) :=
  match getUInt32 data offset with
  | none => none
  | some (cnt, i) =>
    if i + 2 * cnt ≤ data.length then
      some (String.mk (utf16leChars data i cnt), i + 2 * cnt)
    else none

/-- Modelled from the spec: `AbstractNode.ReadLen32Text16(i)` without a
field name — the decoded text becomes the node's interpreted `name`. -/
def readLen32Text16N (data : List Nat) (node : DCNode) (i : Nat) :
    Option (DCNode × Nat) :=
  (getLen32Text16 data i).map (fun p => ({ node with name := p.1 }, p.2))

/-- Modelled from the spec: `AbstractNode.ReadLen32Text16(i, name)` — the
decoded text is stored under `name`. -/
def readLen32Text16A (data : List Nat) (node : DCNode) (i : Nat)
    (name : String) : Option (DCNode × Nat) :=
  (getLen32Text16 data i).map (fun p => (node.set name (Value.vText p.1), p.2))

/-- Modelled from the spec: `SegmentReader.skipBlockSize`
(`importerSegment`, not in src) — skip a fixed-size 4-byte block marker
without interpreting it. -/
def skipBlockSize (i : Nat) : Nat := i + 4

/-- `DCReader.ReadNodeRef` (importerDC.py:186-195): read the
(sequence-number, segment-local-index) pair of 16-bit words; when the index
is positive, record the reference — carrying its list position `number` —
in the node's `childIndexes` queue and return it, otherwise null the
reference and queue nothing.  Either way exactly 4 bytes are consumed. -/
def ReadNodeRef (data : List Nat) (node : DCNode) (offset : Nat)
    (number : Nat) (t : NodeRefType) :
    Option (Option NodeRef × DCNode × Nat) :=
  match getUInt16 data offset with
  | none => none
  | some (n, i1) =>
    match getUInt16 data i1 with
    | none => none
    | some (m, i2) =>
      if 0 < m then
        let ref : NodeRef := { seq := n, index := m, type := t, number := number }
        some (some ref, { node with childIndexes := node.childIndexes ++ [ref] }, i2)
      else some (none, node, i2)

/-- Modelled from the spec: `AbstractNode.ReadNodeRef`-style single
reference field (`ReadChildRef` / `ReadCrossRef` / `ReadParentRef` on the
node, `importerSegNode`, not in src): the same 4-byte (sequence, index)
encoding as `DCReader.ReadNodeRef`, stored under the field name, queued for
the resolution post-pass when the index is positive. -/
def readNodeRefA (data : List Nat) (node : DCNode) (i : Nat) (name : String)
    (t : NodeRefType) : Option (DCNode × Nat) :=
  match ReadNodeRef data node i 0 t with
  | none => none
  | some (r, node, j) => some (node.set name (Value.vRef r), j)

/-- Modelled from the spec: `AbstractNode.ReadChildRef`. -/
def readChildRef (data : List Nat) (node : DCNode) (i : Nat) (name : String) :
    Option (DCNode × Nat) :=
  readNodeRefA data node i name NodeRefType.child

/-- Modelled from the spec: `AbstractNode.ReadCrossRef`. -/
def readCrossRef (data : List Nat) (node : DCNode) (i : Nat) (name : String) :
    Option (DCNode × Nat) :=
  readNodeRefA data node i name NodeRefType.cross

/-- Modelled from the spec: `AbstractNode.ReadParentRef` — the at-most-one
parent link, stored under the fixed field name `parent`. -/
def readParentRef (data : List Nat) (node : DCNode) (i : Nat) :
    Option (DCNode × Nat) :=
  readNodeRefA data node i "parent" NodeRefType.parent

/-- The generic length-driven element loop shared by the list readers: `rem`
elements remain, `j` is the current list position, elements are accumulated
in input order. -/
def readListLoop {α : Type}
    (elem : DCNode → Nat → Nat → Option (α × DCNode × Nat)) :
    Nat → DCNode → Nat → Nat → List α → Option (DCNode × Nat × List α)
  | 0, node, i, _, acc => some (node, i, acc)
  | rem + 1, node, i, j, acc =>
    match elem node i j with
    | none => none
    | some (a, node, i) => readListLoop elem rem node i (j + 1) (acc ++ [a])

/-- Element reader of `ReadRefList`: a single cross-reference. -/
def xrefElem (data : List Nat) (node : DCNode) (i j : Nat) :
    Option (Option NodeRef × DCNode × Nat) :=
  ReadNodeRef data node i j NodeRefType.cross

/-- Element reader of `ReadRefU32List`: a cross-reference followed by a
32-bit word (importerDC.py:253-258, stored as the pair `[ref, u32]`). -/
def refU32Elem (data : List Nat) (node : DCNode) (i j : Nat) :
    Option ((Option NodeRef × Nat) × DCNode × Nat) :=
  match ReadNodeRef data node i j NodeRefType.cross with
  | none => none
  | some (r, node, i) =>
    match getUInt32 data i with
    | none => none
    | some (v, i) => some ((r, v), node, i)

/-- Element shape modelled from the spec for
`AbstractNode._TYP_MAP_X_REF_FLOAT64_`: a cross-reference keyed to a
float64 (bit pattern kept). -/
def refF64Elem (data : List Nat) (node : DCNode) (i j : Nat) :
    Option ((Option NodeRef × Nat) × DCNode × Nat) :=
  match ReadNodeRef data node i j NodeRefType.cross with
  | none => none
  | some (r, node, i) =>
    match getFloat64 data i with
    | none => none
    | some (v, i) => some ((r, v), node, i)

/-- `DCReader.ReadRefList` (importerDC.py:197-211): a 32-bit count, then
that many cross-references, stored in input order under `name`. -/
def ReadRefList (data : List Nat) (node : DCNode) (offset : Nat)
    (name : String) : Option (DCNode × Nat) :=
  match getUInt32 data offset with
  | none => none
  | some (cnt, i) =>
    match readListLoop (xrefElem data) cnt node i 0 [] with
    | none => none
    | some (node, i, lst) => some (node.set name (Value.vRefList lst), i)

/-- `DCReader.ReadRefU32List` (importerDC.py:247-262): a 32-bit count, then
that many (cross-reference, 32-bit word) pairs, stored in input order under
`name`. -/
def ReadRefU32List (data : List Nat) (node : DCNode) (offset : Nat)
    (name : String) : Option (DCNode × Nat) :=
  match getUInt32 data offset with
  | none => none
  | some (cnt, i) =>
    match readListLoop (refU32Elem data) cnt node i 0 [] with
    | none => none
    | some (node, i, lst) => some (node.set name (Value.vRefU32List lst), i)

/-- Modelled from the spec: `AbstractNode.ReadList2` with a node-reference
element type (`importerSegNode`, not in src) — a 32-bit count then that many
references of the given kind, stored under `name`. -/
def readList2Refs (data : List Nat) (node : DCNode) (i : Nat) (name : String)
    (t : NodeRefType) : Option (DCNode × Nat) :=
  match getUInt32 data i with
  | none => none
  | some (cnt, i) =>
    match readListLoop (fun node i j => ReadNodeRef data node i j t) cnt node i 0 [] with
    | none => none
    | some (node, i, lst) => some (node.set name (Value.vRefList lst), i)

/-- Modelled from the spec: `ReadList2(..., _TYP_NODE_X_REF_, name)`. -/
def readList2XRef (data : List Nat) (node : DCNode) (i : Nat) (name : String) :
    Option (DCNode × Nat) :=
  readList2Refs data node i name NodeRefType.cross

/-- Modelled from the spec: `ReadList2(..., _TYP_NODE_REF_, name)`. -/
def readList2Ref (data : List Nat) (node : DCNode) (i : Nat) (name : String) :
    Option (DCNode × Nat) :=
  readList2Refs data node i name NodeRefType.child

/-- Modelled from the spec: `ReadList6(..., _TYP_MAP_X_REF_KEY_, name)` — a
32-bit count then (cross-reference, 32-bit key) pairs. -/
def readList6Key (data : List Nat) (node : DCNode) (i : Nat) (name : String) :
    Option (DCNode × Nat) :=
  match getUInt32 data i with
  | none => none
  | some (cnt, i) =>
    match readListLoop (refU32Elem data) cnt node i 0 [] with
    | none => none
    | some (node, i, lst) => some (node.set name (Value.vRefU32List lst), i)

/-- Modelled from the spec: `ReadList6(..., _TYP_MAP_X_REF_FLOAT64_, name)`
— a 32-bit count then (cross-reference, float64) pairs. -/
def readList6F64 (data : List Nat) (node : DCNode) (i : Nat) (name : String) :
    Option (DCNode × Nat) :=
  match getUInt32 data i with
  | none => none
  | some (cnt, i) =>
    match readListLoop (refF64Elem data) cnt node i 0 [] with
    | none => none
    | some (node, i, lst) => some (node.set name (Value.vRefF64List lst), i)

/-- Modelled from the spec: `ReadList6(..., _TYP_MAP_MDL_TXN_MGR_)` with the
default field name — a 32-bit count then fixed-shape keyed tuples, modelled
as (reference, 32-bit word) pairs. -/
def readList6MdlTxnMgr (data : List Nat) (node : DCNode) (i : Nat) :
    Option (DCNode × Nat) :=
  readList6Key data node i "lst0"

/-- Modelled from the spec: `AbstractNode.Read_Header0` (`importerSegNode`,
not in src) — "minimal: just the record's own type/size markers, no
cross-refs" (spec §4.4); two 32-bit markers read from the start of the
node's byte range. -/
def readHeader0 (data : List Nat) (node : DCNode) : Option (DCNode × Nat) :=
  match readU32 data node 0 "hdr_m0" with
  | none => none
  | some (node, i) => readU32 data node i "hdr_m1"

/-- Sequencing helper for the long field chains: feed the node/offset pair
of a successful previous read into the next read, propagating the fatal
error `none`. -/
def step (f : DCNode → Nat → Option (DCNode × Nat)) :
    Option (DCNode × Nat) → Option (DCNode × Nat)
  | none => none
  | some (node, i) => f node i

/-- `DCReader.ReadContentHeader` (importerDC.py:77-93): Header0, a label
ChildRef, a 32-bit flags word, a skipped block, a ParentRef and an index;
bit 0x400 of the flags drives `visible`, bit 0x800000 drives
`dimensioningVisible`. -/
def ReadContentHeader (data : List Nat) (node : DCNode) : Option (DCNode × Nat) :=
  readHeader0 data node
  |> step (fun node i => readChildRef data node i "label")
  |> step (fun node i => readU32 data node i "flags")
  |> step (fun node i => readParentRef data node (skipBlockSize i))
  |> step (fun node i => readU32 data node i "index")
  |> step (fun node i =>
      let flags := node.getU32 "flags"
      let node := { node with
        visible := decide (0 < Nat.land flags 0x400),
        dimensioningVisible := decide (0 < Nat.land flags 0x800000) }
      some (node.set "ContentHeader" (Value.vBool true), i))

/-- `DCReader.ReadSketch2DEntityHeader` (importerDC.py:95-104). -/
def ReadSketch2DEntityHeader (data : List Nat) (node : DCNode) (tn : String) :
    Option (DCNode × Nat) :=
  ReadContentHeader data { node with typeName := tn }
  |> step (fun node i =>
      readS32 data node (skipBlockSize (skipBlockSize (skipBlockSize i))) "s32_0")
  |> step (fun node i => readCrossRef data node (skipBlockSize i) "refSketch")

/-- `DCReader.ReadConstraintHeader2D` (importerDC.py:122-140): after the
content header and the sketch-group CrossRef, file versions after 2012 read
the two version-gated list fields `lst0` and `lst1`; earlier versions skip
two fixed-size blocks instead and store neither field. -/
def ReadConstraintHeader2D (fv : Nat) (data : List Nat) (node : DCNode)
    (tn : String) : Option (DCNode × Nat) :=
  ReadContentHeader data { node with typeName := tn }
  |> step (fun node i => readS32 data node (skipBlockSize i) "s32_0")
  |> step (fun node i => readCrossRef data node (skipBlockSize i) "refGroup")
  |> step (fun node i =>
      if 2012 < fv then
        readList6F64 data node i "lst0"
        |> step (fun node i => readList6Key data node i "lst1")
      else some (node, skipBlockSize (skipBlockSize i)))
  |> step (fun node i => readCrossRef data node i "refParameter")

/-- `DCReader.Read_CE52DF3A` (SketchLine), first part (importerDC.py:
5733-5742): Sketch2D entity header, the points list, and the version-gated
`lst1` list — everything before the four trailing float64 fields. -/
def Read_CE52DF3A_head (fv : Nat) (data : List Nat) (node : DCNode) :
    Option (DCNode × Nat) :=
  ReadSketch2DEntityHeader data node "Line2D"
  |> step (fun node i => readList2XRef data node (skipBlockSize i) "points")
  |> step (fun node i =>
      let i := skipBlockSize i
      if 2012 < fv then readList2XRef data node i "lst1"
      else some (node, i))

/-- `DCReader.Read_CE52DF3A` (SketchLine, importerDC.py:5733-5749): the
header part followed by the root point x/y and the direction x/y, four
float64 fields. -/
def Read_CE52DF3A (fv : Nat) (data : List Nat) (node : DCNode) :
    Option (DCNode × Nat) :=
  Read_CE52DF3A_head fv data node
  |> step (fun node i => readF64 data node i "x")
  |> step (fun node i => readF64 data node i "y")
  |> step (fun node i => readF64 data node i "dirX")
  |> step (fun node i => readF64 data node i "dirY")

/-- Modelled from the spec: `importerUtils.translate` (not in src; renamed here to avoid a library name clash) — the
"small, fixed table of locale-dependent parameter names (e.g. translating
PI/E to canonical names)" (spec §3). -/
def translateName (s : String) : String :=
  if s = "PI" then "pi" else if s = "E" then "e" else s

/-- The warning text logged by `Read_90874D26` when a parameter name is
translated (importerDC.py:4151; Python `%r` quotes the new name). -/
def paramWarning (old new : String) : String :=
  "    >WARNING - translated parameter name " ++ old ++ " to \x27" ++ new ++ "\x27!"

/-- Document-kind constants of `DCReader` (importerDC.py:25-28). -/
def DOC_ASSEMBLY : Nat := 1

/-- Document-kind constant `DCReader.DOC_DRAWING`. -/
def DOC_DRAWING : Nat := 2

/-- Document-kind constant `DCReader.DOC_PART`. -/
def DOC_PART : Nat := 3

/-- Document-kind constant `DCReader.DOC_PRESENTATION`. -/
def DOC_PRESENTATION : Nat := 4

/-- The reader-level mutable state threaded through the decoders: the
document kind flag `self.type` (0 = not yet discovered) and the warning log
(`logWarning`, modelled as part of the decode context per spec §9). -/
structure ReaderState where
  type : Nat := 0
  warnings : List String := []
deriving DecidableEq, Repr

/-- `DCReader.Read_90874D26` (Parameter, importerDC.py:4139-4147), first
part: content header, three skipped blocks, then the parameter's name. -/
def Read_90874D26_named (data : List Nat) (node : DCNode) :
    Option (DCNode × Nat) :=
  ReadContentHeader data { node with typeName := "Parameter" }
  |> step (fun node i =>
      readLen32Text16N data node (skipBlockSize (skipBlockSize (skipBlockSize i))))

/-- `DCReader.Read_90874D26` (Parameter, importerDC.py:4139-4160): after
reading the name, apply the translation table — renaming the node and
logging a warning when the table fires — then read the unit and value
references, the nominal and model values, the tolerance and a trailing
signed 16-bit field. -/
def Read_90874D26 (data : List Nat) (st : ReaderState) (node : DCNode) :
    ReaderState × Option (DCNode × Nat) :=
  match Read_90874D26_named data node with
  | none => (st, none)
  | some (node, i) =>
    let name := node.name
    let tname := translateName name
    let st' := if tname ≠ name then
        { st with warnings := st.warnings ++ [paramWarning name tname] }
      else st
    let node := if tname ≠ name then { node with name := tname } else node
    (st',
      readChildRef data node (i + 4) "refUnit"
      |> step (fun node i => readChildRef data node i "refValue")
      |> step (fun node i => readF64 data node i "valueNominal")
      |> step (fun node i => readF64 data node i "valueModel")
      |> step (fun node i => readEnum16 data node i "tolerance")
      |> step (fun node i => readS16 data node i "u16_0"))

/-- `DCReader.Read_0AA8AF46` (ParameterConstant, importerDC.py:814-820),
first part: Header0, unit reference, value, two integer fields, then the
constant's name. -/
def Read_0AA8AF46_pre (data : List Nat) (node : DCNode) :
    Option (DCNode × Nat) :=
  readHeader0 data { node with typeName := "ParameterConstant" }
  |> step (fun node i => readChildRef data node i "refUnit")
  |> step (fun node i => readF64 data node i "value")
  |> step (fun node i => readS16 data node i "s16_0")
  |> step (fun node i => readU32 data node i "u32_0")
  |> step (fun node i => readLen32Text16N data node i)

/-- `DCReader.Read_0AA8AF46` (ParameterConstant, importerDC.py:814-824):
after the name is read, "PI" is renamed to "pi" and "E" to "e" inline. -/
def Read_0AA8AF46 (data : List Nat) (node : DCNode) : Option (DCNode × Nat) :=
  Read_0AA8AF46_pre data node
  |> step (fun node i =>
      some (if node.name = "PI" then { node with name := "pi" }
            else if node.name = "E" then { node with name := "e" }
            else node, i))

/-- `DCReader.Read_90874D16` (Document/part, importerDC.py:4076-4107), the
field sequence after `self.type` is set. -/
def Read_90874D16_body (data : List Nat) (node : DCNode) :
    Option (DCNode × Nat) :=
  readHeader0 data { node with typeName := "Document" }
  |> step (fun node i => readChildRef data node i "label")
  |> step (fun node i => readU32 data node i "u32_0")
  |> step (fun node i => readUUID data node (skipBlockSize i) "uid_0")
  |> step (fun node i => readLen32Text16N data node i)
  |> step (fun node i => readList2Ref data node i "lst0")
  |> step (fun node i => readU16A data node i 6 "a0")
  |> step (fun node i => readChildRef data node (skipBlockSize i) "refElements")
  |> step (fun node i => readChildRef data node i "ref_1")
  |> step (fun node i => readChildRef data node (skipBlockSize i) "ref_2")
  |> step (fun node i => readChildRef data node i "refWorkbook")
  |> step (fun node i => readChildRef data node i "cld_1")
  |> step (fun node i => readChildRef data node i "cld_2")
  |> step (fun node i => readCrossRef data node (skipBlockSize i) "ref_3")
  |> step (fun node i => readU16A data node i 2 "a0")
  |> step (fun node i => readChildRef data node i "ref_5")
  |> step (fun node i => readU32 data node i "u32_2")
  |> step (fun node i => readChildRef data node i "red_6")
  |> step (fun node i => readCrossRef data node (skipBlockSize i) "ref_7")
  |> step (fun node i => readLen32Text16A data node i "refSegName")
  |> step (fun node i => readF64 data node i "f64_0")
  |> step (fun node i => readCrossRef data node i "ref_8")

/-- `DCReader.Read_90874D16` (importerDC.py:4076-4078): sets the reader field `type`
(the document kind) to `DOC_PART`, then decodes the field sequence. -/
def Read_90874D16 (st : ReaderState) (data : List Nat) (node : DCNode) :
    ReaderState × Option (DCNode × Nat) :=
  ({ st with type := DOC_PART }, Read_90874D16_body data node)

/-- `DCReader.Read_90874D46` (Document/assembly, importerDC.py:4189-4223),
the field sequence after `self.type` is set; file versions after 2012 read
one extra trailing child reference. -/
def Read_90874D46_body (fv : Nat) (data : List Nat) (node : DCNode) :
    Option (DCNode × Nat) :=
  readHeader0 data { node with typeName := "Document" }
  |> step (fun node i => readChildRef data node i "label")
  |> step (fun node i => readU32 data node i "u32_0")
  |> step (fun node i => readUUID data node (skipBlockSize i) "uid_0")
  |> step (fun node i => readLen32Text16N data node i)
  |> step (fun node i => readList2Ref data node i "lst0")
  |> step (fun node i => readU32A data node i 3 "a0")
  |> step (fun node i => readChildRef data node (skipBlockSize i) "refElements")
  |> step (fun node i => readChildRef data node i "ref_1")
  |> step (fun node i => readChildRef data node (skipBlockSize i) "ref_2")
  |> step (fun node i => readU32 data node i "u32_1")
  |> step (fun node i => readChildRef data node i "ref_3")
  |> step (fun node i => readChildRef data node i "ref_4")
  |> step (fun node i => readU32A data node (skipBlockSize i) 2 "a2")
  |> step (fun node i => readChildRef data node i "ref_5")
  |> step (fun node i => readU32 data node i "u32_2")
  |> step (fun node i => readChildRef data node i "ref_6")
  |> step (fun node i => readU32 data node (skipBlockSize i) "u32_2")
  |> step (fun node i => readChildRef data node i "ref_7")
  |> step (fun node i => readU32 data node i "u32_3")
  |> step (fun node i => readList2Ref data node i "lst1")
  |> step (fun node i => readChildRef data node i "ref_8")
  |> step (fun node i => readChildRef data node i "ref_9")
  |> step (fun node i => readChildRef data node i "ref_A")
  |> step (fun node i =>
      if 2012 < fv then readChildRef data node i "ref_B" else some (node, i))

/-- `DCReader.Read_90874D46` (importerDC.py:4189-4191): sets the reader field `type`
(the document kind) to `DOC_ASSEMBLY`, then decodes the field sequence. -/
def Read_90874D46 (fv : Nat) (st : ReaderState) (data : List Nat)
    (node : DCNode) : ReaderState × Option (DCNode × Nat) :=
  ({ st with type := DOC_ASSEMBLY }, Read_90874D46_body fv data node)

/-- `DCReader.Read_452121B6` (ModelerTxnMgr, importerDC.py:2344-2358): for
file versions after 2011 decoded inside a part document, four extra bytes
are skipped before `u32_1` — the one decoder whose layout depends on the
document-kind flag of the reader. -/
def Read_452121B6 (fv : Nat) (docType : Nat) (data : List Nat)
    (node : DCNode) : Option (DCNode × Nat) :=
  readHeader0 data { node with typeName := "ModelerTxnMgr" }
  |> step (fun node i => readChildRef data node i "ref_1")
  |> step (fun node i => readU32 data node i "flags")
  |> step (fun node i => readParentRef data node (skipBlockSize i))
  |> step (fun node i => readChildRef data node i "ref_2")
  |> step (fun node i => readU32 data node i "u32_0")
  |> step (fun node i =>
      readU32 data node
        (if 2011 < fv ∧ docType = DOC_PART then i + 4 else i) "u32_1")
  |> step (fun node i => readList6MdlTxnMgr data node i)
  |> step (fun node i => readU32 data node i "u32_2")

/-- Modelled from the spec (§4.5 Segment Reader, `importerSegment`, not in
src): decode one node-table entry — dispatch the 32-bit type key to its
decoder; keys without a table entry fall back to the ignorable decoder that
records only the byte range.  The dispatch is restricted to the decoders the
verified claims are about. -/
def decodeOne (fv : Nat) (st : ReaderState) (key : Nat) (data : List Nat) :
    ReaderState × Option (DCNode × Nat) :=
  if key = 0x90874D16 then Read_90874D16 st data initNode
  else if key = 0x90874D46 then Read_90874D46 fv st data initNode
  else if key = 0x452121B6 then (st, Read_452121B6 fv st.type data initNode)
  else if key = 0x90874D26 then Read_90874D26 data st initNode
  else (st, some (initNode, 0))

/-- Modelled from the spec (§4.5, §5): a segment decode is a sequential fold
over the node table in stream order, threading the reader state; the output
graph is the list of per-node decode results. -/
def decodeSegment (fv : Nat) :
    List (Nat × List Nat) → ReaderState → List (Option (DCNode × Nat)) × ReaderState
  | [], st => ([], st)
  | (key, data) :: rest, st =>
    let p := decodeOne fv st key data
    let q := decodeSegment fv rest p.1
    (p.2 :: q.1, q.2)

/-- Decoding the same node table twice, each run starting from a freshly
constructed reader (the orchestration constructs a new `DCReader` per
segment decode; modelled from the spec §5/§9). -/
def decodeTwice (fv : Nat) (entries : List (Nat × List Nat)) :
    List (Option (DCNode × Nat)) × List (Option (DCNode × Nat)) :=
  ((decodeSegment fv entries {}).1, (decodeSegment fv entries {}).1)

/-- The cross-reference decoded at byte position `pos` with list position
`num`: null when the segment-local index (second 16-bit word) is zero. -/
def mkRef (data : List Nat) (pos : Nat) (t : NodeRefType) (num : Nat) :
    Option NodeRef :=
  if 0 < le16 data (pos + 2) then
    some { seq := le16 data pos, index := le16 data (pos + 2), type := t, number := num }
  else none

/-- The reference sequence a `ReadRefList` loop decodes: `cnt` 4-byte
cross-references starting at `i`, in buffer order, list positions from
`j`. -/
def crossRefsFrom (data : List Nat) : Nat → Nat → Nat → List (Option NodeRef)
  | _, _, 0 => []
  | i, j, cnt + 1 =>
    mkRef data i NodeRefType.cross j :: crossRefsFrom data (i + 4) (j + 1) cnt

/-- The pair sequence a `ReadRefU32List` loop decodes: `cnt` 8-byte
(cross-reference, 32-bit word) pairs starting at `i`, in buffer order. -/
def refU32sFrom (data : List Nat) : Nat → Nat → Nat → List (Option NodeRef × Nat)
  | _, _, 0 => []
  | i, j, cnt + 1 =>
    (mkRef data i NodeRefType.cross j, le32 data (i + 4)) ::
      refU32sFrom data (i + 8) (j + 1) cnt

/-- Python `list.insert(n, a)`. -/
def insertAt {α : Type} (n : Nat) (a : α) (l : List α) : List α :=
  l.take n ++ a :: l.drop n

/-- One iteration of the stream-ordering loop of `ReadFile`
(Import_IPT.py:160-171): top-level streams are appended; `RSe*` streams are
inserted at the front section (with `RSeDb` kept the very first), `B*`
streams are dropped (handled with their `M*` partner), everything else is
appended.  State: (insertion point `first`, ordered list). -/
def orderStep (acc : Nat × List (List String)) (fname : List String) :
    Nat × List (List String) :=
  if fname.length = 1 then (acc.1, acc.2 ++ [fname])
  else
    let last := fname.getLastD ""
    if last.startsWith "RSe" then
      (if last = "RSeDb" then acc.1 + 1 else acc.1, insertAt acc.1 fname acc.2)
    else if last.startsWith "B" then acc
    else (acc.1, acc.2 ++ [fname])

/-- The stream order `ReadFile` processes a valid file in
(Import_IPT.py:158-171). -/
def orderElements (elements : List (List String)) : List (List String) :=
  (elements.foldl orderStep (0, [])).2

/-- Modelled from the spec: the import environment handed to `ReadFile` —
whether `olefile.isOleFile` accepts the input, the current Inventor file
name (the module-level name the container-failure message interpolates;
`importerReader`/`importerUtils`, not in src), and the named streams the
container enumerates. -/
structure OleEnv where
  isOle : Bool
  infile : String
  elements : List (List String)

/-- The outcome of `ReadFile` (Import_IPT.py:142-187): the boolean result,
the error log, and the streams handed to `ReadElement` for decoding, in
order. -/
structure ImportResult where
  ok : Bool
  errors : List String
  readElements : List (List String)
deriving DecidableEq, Repr

/-- The container-level failure message of `ReadFile`
(Import_IPT.py:186). -/
def notOleError (f : String) : String :=
  "Error - \x27" ++ f ++ "\x27 is not a valid Autodesk Inventor file."

/-- `ReadFile` (Import_IPT.py:142-187): when the input is a compound (OLE)
file, order the streams and hand each to `ReadElement`, returning True;
otherwise log the container-level error naming the file and return False
without decoding any stream. -/
def ReadFile (env : OleEnv) : ImportResult :=
  if env.isOle then
    { ok := true, errors := [], readElements := orderElements env.elements }
  else
    { ok := false, errors := [notOleError env.infile], readElements := [] }

/-- Concrete content-header buffer used by the C7 witness: flags word
0x400, label reference (1, 2), null parent. -/
def c7Buf : List Nat :=
  [0, 0, 0, 0, 0, 0, 0, 0, 1, 0, 2, 0, 0, 4, 0, 0] ++ List.replicate 16 0

/-- The node `ReadContentHeader` decodes from `c7Buf`. -/
def c7Node : DCNode :=
  { typeName := "", name := "", visible := true, dimensioningVisible := false,
    attrs := [("ContentHeader", Value.vBool true), ("index", Value.vU32 0),
              ("parent", Value.vRef none), ("flags", Value.vU32 1024),
              ("label", Value.vRef (some
                { seq := 1, index := 2, type := NodeRefType.child, number := 0 })),
              ("hdr_m1", Value.vU32 0), ("hdr_m0", Value.vU32 0)],
    childIndexes :=
      [{ seq := 1, index := 2, type := NodeRefType.child, number := 0 }] }

/-- The node `ReadConstraintHeader2D` decodes from 60 zero bytes for file
versions after 2012 (both gated lists read, empty). -/
def c8NodeA : DCNode :=
  { typeName := "T", name := "", visible := false, dimensioningVisible := false,
    attrs := [("refParameter", Value.vRef none),
              ("lst1", Value.vRefU32List []), ("lst0", Value.vRefF64List []),
              ("refGroup", Value.vRef none), ("s32_0", Value.vS32 0),
              ("ContentHeader", Value.vBool true), ("index", Value.vU32 0),
              ("parent", Value.vRef none), ("flags", Value.vU32 0),
              ("label", Value.vRef none), ("hdr_m1", Value.vU32 0),
              ("hdr_m0", Value.vU32 0)],
    childIndexes := [] }

/-- The node `ReadConstraintHeader2D` decodes from the same 60 zero bytes
for file versions up to 2012 (no gated lists, blocks skipped). -/
def c8NodeB : DCNode :=
  { typeName := "T", name := "", visible := false, dimensioningVisible := false,
    attrs := [("refParameter", Value.vRef none),
              ("refGroup", Value.vRef none), ("s32_0", Value.vS32 0),
              ("ContentHeader", Value.vBool true), ("index", Value.vU32 0),
              ("parent", Value.vRef none), ("flags", Value.vU32 0),
              ("label", Value.vRef none), ("hdr_m1", Value.vU32 0),
              ("hdr_m0", Value.vU32 0)],
    childIndexes := [] }

/-- The node the SketchLine header part decodes from 95 zero bytes at file
version 2012 (offset 64 reached, the four trailing float64 fields pending). -/
def c2Node : DCNode :=
  { typeName := "Line2D", name := "", visible := false,
    dimensioningVisible := false,
    attrs := [("points", Value.vRefList []), ("refSketch", Value.vRef none),
              ("s32_0", Value.vS32 0), ("ContentHeader", Value.vBool true),
              ("index", Value.vU32 0), ("parent", Value.vRef none),
              ("flags", Value.vU32 0), ("label", Value.vRef none),
              ("hdr_m1", Value.vU32 0), ("hdr_m0", Value.vU32 0)],
    childIndexes := [] }

/-- The 80-byte Parameter record buffer whose name field decodes to "PI"
(UTF-16LE at offset 40). -/
def c6Buf : List Nat :=
  (List.replicate 40 0) ++ [2, 0, 0, 0, 0x50, 0, 0x49, 0] ++ List.replicate 32 0

/-- The node the Parameter header-and-name part decodes from `c6Buf`. -/
def c6Node : DCNode :=
  { typeName := "Parameter", name := "PI", visible := false,
    dimensioningVisible := false,
    attrs := [("ContentHeader", Value.vBool true), ("index", Value.vU32 0),
              ("parent", Value.vRef none), ("flags", Value.vU32 0),
              ("label", Value.vRef none), ("hdr_m1", Value.vU32 0),
              ("hdr_m0", Value.vU32 0)],
    childIndexes := [] }

/-! ## Helper lemmas -/

theorem getUInt16_of_le {data : List Nat} {o : Nat} (h : o + 2 ≤ data.length) :
    getUInt16 data o = some (le16 data o, o + 2) := by
  simp [getUInt16, h]

theorem getUInt32_of_le {data : List Nat} {o : Nat} (h : o + 4 ≤ data.length) :
    getUInt32 data o = some (le32 data o, o + 4) := by
  simp [getUInt32, h]

theorem getFloat64_of_le {data : List Nat} {o : Nat} (h : o + 8 ≤ data.length) :
    getFloat64 data o = some (le64 data o, o + 8) := by
  simp [getFloat64, h]

theorem getFloat64_of_gt {data : List Nat} {o : Nat} (h : data.length < o + 8) :
    getFloat64 data o = none := by
  simp [getFloat64]
  omega

theorem step_eq_some {f : DCNode → Nat → Option (DCNode × Nat)}
    {x : Option (DCNode × Nat)} {r : DCNode × Nat} :
    step f x = some r ↔ ∃ n i, x = some (n, i) ∧ f n i = some r := by
  cases x with
  | none => simp [step]
  | some p =>
    cases p with
    | mk n i =>
      simp only [step, Option.some.injEq, Prod.mk.injEq]
      constructor
      · intro h
        exact ⟨n, i, ⟨rfl, rfl⟩, h⟩
      · rintro ⟨n1, i1, ⟨h1, h2⟩, h⟩
        subst h1
        subst h2
        exact h

theorem step_none {f : DCNode → Nat → Option (DCNode × Nat)} :
    step f none = none := rfl

theorem step_some {f : DCNode → Nat → Option (DCNode × Nat)} {n : DCNode}
    {i : Nat} : step f (some (n, i)) = f n i := rfl

theorem set_name (n : DCNode) (a : String) (v : Value) :
    (DCNode.set n a v).name = n.name := rfl

theorem set_childIndexes (n : DCNode) (a : String) (v : Value) :
    (DCNode.set n a v).childIndexes = n.childIndexes := rfl

theorem set_get_self (n : DCNode) (a : String) (v : Value) :
    (DCNode.set n a v).get a = some v := by
  simp [DCNode.set, DCNode.get, getAttr]

theorem set_get_ne (n : DCNode) (a b : String) (v : Value) (h : a ≠ b) :
    (DCNode.set n a v).get b = n.get b := by
  simp [DCNode.set, DCNode.get, getAttr, h]

/-! ## C1 and C10: the self-correcting size scan of setNodeData -/

theorem sizeScanAux_finds (data : List Nat) (size : Nat) :
    ∀ rem i j, j - i ≤ rem → i ≤ j → j + 4 ≤ data.length →
      le32 data j = size →
      (∀ k, i ≤ k → k < j → le32 data k ≠ size) →
      sizeScanAux data size rem i = some j := by
  intro rem
  induction rem with
  | zero =>
    intro i j hrem hij hj hmark _hmin
    have hji : j = i := by omega
    subst hji
    have hg : getUInt32 data j = some (le32 data j, j + 4) :=
      getUInt32_of_le hj
    simp [sizeScanAux, hg, hmark]
  | succ m ih =>
    intro i j hrem hij hj hmark hmin
    by_cases hji : j = i
    · subst hji
      have hg : getUInt32 data j = some (le32 data j, j + 4) :=
        getUInt32_of_le hj
      simp [sizeScanAux, hg, hmark]
    · have hij' : i < j := by omega
      have hgi : getUInt32 data i = some (le32 data i, i + 4) :=
        getUInt32_of_le (by omega)
      have hsi : le32 data i ≠ size := hmin i le_rfl hij'
      have hilen : i < data.length := by omega
      simp [sizeScanAux, hgi, hsi, hilen]
      exact ih (i + 1) j (by omega) (by omega) hj hmark
        (fun k hk1 hk2 => hmin k (by omega) hk2)

theorem sizeScan_finds (data : List Nat) (size i j : Nat)
    (hij : i ≤ j) (hj : j + 4 ≤ data.length) (hmark : le32 data j = size)
    (hmin : ∀ k, i ≤ k → k < j → le32 data k ≠ size) :
    sizeScan data size i = some j :=
  sizeScanAux_finds data size (data.length - i) i j (by omega) hij hj hmark hmin

theorem sizeScanAux_none (data : List Nat) (size : Nat) :
    ∀ rem i, (∀ k, i ≤ k → k + 4 ≤ data.length → le32 data k ≠ size) →
      sizeScanAux data size rem i = none := by
  intro rem
  induction rem with
  | zero =>
    intro i h
    by_cases hb : i + 4 ≤ data.length
    · have hne : le32 data i ≠ size := h i le_rfl hb
      have hlt : i < data.length := by omega
      simp [sizeScanAux, getUInt32_of_le hb, hne, hlt]
    · simp [sizeScanAux, getUInt32, hb]
  | succ m ih =>
    intro i h
    by_cases hb : i + 4 ≤ data.length
    · have hne : le32 data i ≠ size := h i le_rfl hb
      have hlt : i < data.length := by omega
      simp [sizeScanAux, getUInt32_of_le hb, hne, hlt]
      exact ih (i + 1) (fun k hk1 hk2 => h k (by omega) hk2)
    · simp [sizeScanAux, getUInt32, hb]

theorem sizeScan_none (data : List Nat) (size i : Nat)
    (h : ∀ k, i ≤ k → k + 4 ≤ data.length → le32 data k ≠ size) :
    sizeScan data size i = none :=
  sizeScanAux_none data size (data.length - i) i h

/-- C1: for a node whose type key is 0x2B48A42B or 0x90874D63 and whose
32-bit size marker at `offset + declaredSize` differs from the declared
size, `setNodeData` scans forward one byte at a time until the 32-bit value
read equals the declared size (`j` the first such position) and sets the
node size to the scanned distance `j - offset`; for a node with any other
type key — UUID with another `time_low`, or a plain integer tag — the
declared size is kept unchanged. -/
theorem spec2_c1_sizeCorrection (data : List Nat) (offset size tl j : Nat)
    (hbyte : offset - 4 + 1 ≤ data.length) :
    ((tl = 0x2B48A42B ∨ tl = 0x90874D63) →
      le32 data (offset + size) ≠ size →
      offset + size ≤ j → j + 4 ≤ data.length → le32 data j = size →
      (∀ k, offset + size ≤ k → k < j → le32 data k ≠ size) →
      setNodeData data offset size (SegTypeID.uuid tl) =
        some (j - offset, listSlice data offset (j - offset)))
    ∧ ((tl ≠ 0x2B48A42B ∧ tl ≠ 0x90874D63) →
      offset + size + 4 ≤ data.length →
      setNodeData data offset size (SegTypeID.uuid tl) =
        some (size, listSlice data offset size))
    ∧ (∀ v, setNodeData data offset size (SegTypeID.raw v) =
        some (size, listSlice data offset size)) := by
  have h8 : getUInt8 data (offset - 4) =
      some (data.getD (offset - 4) 0, offset - 4 + 1) := by
    simp [getUInt8, hbyte]
  refine ⟨?_, ?_, ?_⟩
  · intro htr hmis hjlo hjhi hmark hmin
    have hgm : getUInt32 data (offset + size) =
        some (le32 data (offset + size), offset + size + 4) :=
      getUInt32_of_le (by omega)
    have hscan : sizeScan data size (offset + size) = some j :=
      sizeScan_finds data size (offset + size) j hjlo hjhi hmark hmin
    simp [setNodeData, h8, hgm, hmis, htr, hscan]
  · intro htr hb
    have hgm : getUInt32 data (offset + size) =
        some (le32 data (offset + size), offset + size + 4) :=
      getUInt32_of_le hb
    simp [setNodeData, h8, hgm, htr.1, htr.2]
  · intro v
    simp [setNodeData, h8]

/-- C1 witness: a 0x90874D63 node at offset 4 with declared size 3 whose
marker at 7 disagrees; the realigning marker sits at byte 9, so the size
becomes 5 — and a non-trigger key keeps size 3. -/
theorem spec2_c1_witness :
    setNodeData ((List.replicate 9 0) ++ [3] ++ List.replicate 10 0) 4 3
        (SegTypeID.uuid 0x90874D63) =
      some (5, listSlice ((List.replicate 9 0) ++ [3] ++ List.replicate 10 0) 4 5)
    ∧ setNodeData ((List.replicate 9 0) ++ [3] ++ List.replicate 10 0) 4 3
        (SegTypeID.uuid 0x1111) =
      some (3, listSlice ((List.replicate 9 0) ++ [3] ++ List.replicate 10 0) 4 3) := by
  constructor
  · have h := (spec2_c1_sizeCorrection
      ((List.replicate 9 0) ++ [3] ++ List.replicate 10 0) 4 3 0x90874D63 9
      (by decide)).1 (Or.inr rfl) (by decide) (by decide) (by decide) (by decide)
      (by decide)
    simpa using h
  · exact (spec2_c1_sizeCorrection
      ((List.replicate 9 0) ++ [3] ++ List.replicate 10 0) 4 3 0x1111 0
      (by decide)).2.1 (by decide) (by decide)

/-- C10 counterexample: a 0x2B48A42B node at offset 4 with declared size 1
in a 12-byte buffer whose bytes are all zero.  The entry reads (the type
byte at offset-4 and the marker at offset+size = 5) are in bounds, yet the
self-correcting scan never finds a realigning marker and walks to positions
greater than len(data) - 4, where the 4-byte read overruns the buffer: the
decode fails with the fatal out-of-range primitive error instead of
terminating in bounds, refuting the claim that every size-marker read
starts at a position no greater than len(data) - 4. -/
theorem spec2_c10_counterexample :
    (4 : Nat) - 4 + 1 ≤ (List.replicate 12 0 : List Nat).length
    ∧ 4 + 1 + 4 ≤ (List.replicate 12 0 : List Nat).length
    ∧ setNodeData (List.replicate 12 0) 4 1 (SegTypeID.uuid 0x2B48A42B) = none := by
  refine ⟨by decide, by decide, ?_⟩
  decide

/-- C10 amended: the loop guard of the scan only bounds the scan position by
`i < len(data)`, not by `len(data) - 4`; whenever no realigning 32-bit
marker equal to the declared size exists in the readable window, the scan
reaches a position within 4 bytes of the end and the 4-byte read there
overruns the buffer, surfacing as the fatal primitive-codec error (`none`)
rather than terminating normally. -/
theorem spec2_c10_scanOverrun (data : List Nat) (offset size tl : Nat)
    (htr : tl = 0x2B48A42B ∨ tl = 0x90874D63)
    (hbyte : offset - 4 + 1 ≤ data.length)
    (hinit : offset + size + 4 ≤ data.length)
    (hnone : ∀ k, offset + size ≤ k → k + 4 ≤ data.length →
      le32 data k ≠ size) :
    setNodeData data offset size (SegTypeID.uuid tl) = none := by
  have h8 : getUInt8 data (offset - 4) =
      some (data.getD (offset - 4) 0, offset - 4 + 1) := by
    simp [getUInt8, hbyte]
  have hgm : getUInt32 data (offset + size) =
      some (le32 data (offset + size), offset + size + 4) :=
    getUInt32_of_le hinit
  have hmis : le32 data (offset + size) ≠ size :=
    hnone (offset + size) le_rfl hinit
  have hscan : sizeScan data size (offset + size) = none :=
    sizeScan_none data size (offset + size)
      (fun k hk1 hk2 => hnone k hk1 hk2)
  simp [setNodeData, h8, hgm, hmis, htr, hscan]

/-- C10 witness for the amended statement: a 16-byte all-zero buffer,
offset 4, declared size 2, key 0x90874D63 — no marker equals 2 anywhere, so
the decode fails with the out-of-range read. -/
theorem spec2_c10_witness :
    setNodeData (List.replicate 16 0) 4 2 (SegTypeID.uuid 0x90874D63) = none := by
  have H : ∀ k, k < 13 → le32 (List.replicate 16 0) k ≠ 2 := by decide
  exact spec2_c10_scanOverrun (List.replicate 16 0) 4 2 0x90874D63
    (Or.inr rfl) (by decide) (by decide)
    (fun k _hk1 hk2 => H k (by simp at hk2; omega))

/-! ## C3: ReadNodeRef nulls non-positive indices and queues positive ones -/

/-- C3: for every reference read by `DCReader.ReadNodeRef`, when the decoded
16-bit segment-local index is 0 (the only non-positive value of an unsigned
field) the result is the null reference and the child-index queue is
untouched; when it is positive, a reference carrying its list position
`number` is returned and appended to the queue; in both cases exactly 4
bytes are consumed. -/
theorem spec2_c3_nodeRef (data : List Nat) (node : DCNode)
    (offset number : Nat) (t : NodeRefType)
    (hlen : offset + 4 ≤ data.length) :
    (le16 data (offset + 2) = 0 →
      ReadNodeRef data node offset number t = some (none, node, offset + 4))
    ∧ (0 < le16 data (offset + 2) →
      ReadNodeRef data node offset number t =
        some (some { seq := le16 data offset, index := le16 data (offset + 2),
                     type := t, number := number },
          { node with childIndexes := node.childIndexes ++
              [{ seq := le16 data offset, index := le16 data (offset + 2),
                 type := t, number := number }] },
          offset + 4)) := by
  have h1 : getUInt16 data offset = some (le16 data offset, offset + 2) :=
    getUInt16_of_le (by omega)
  have h2 : getUInt16 data (offset + 2) =
      some (le16 data (offset + 2), offset + 2 + 2) :=
    getUInt16_of_le (by omega)
  rw [show offset + 2 + 2 = offset + 4 from by omega] at h2
  constructor
  · intro hz
    simp [ReadNodeRef, h1, h2, hz]
  · intro hp
    simp [ReadNodeRef, h1, h2, Nat.pos_iff_ne_zero.mp hp]

/-- C3 witness: both branches at concrete buffers — index word 7 queues the
reference with list position 3; index word 0 yields null and no queueing. -/
theorem spec2_c3_witness :
    ReadNodeRef [5, 0, 7, 0] initNode 0 3 NodeRefType.cross =
      some (some { seq := 5, index := 7, type := NodeRefType.cross, number := 3 },
        { initNode with childIndexes :=
            [{ seq := 5, index := 7, type := NodeRefType.cross, number := 3 }] }, 4)
    ∧ ReadNodeRef [5, 0, 0, 0] initNode 0 3 NodeRefType.cross =
        some (none, initNode, 4) := by
  constructor
  · exact (spec2_c3_nodeRef [5, 0, 7, 0] initNode 0 3 NodeRefType.cross
      (by decide)).2 (by decide)
  · exact (spec2_c3_nodeRef [5, 0, 0, 0] initNode 0 3 NodeRefType.cross
      (by decide)).1 (by decide)

/-! ## C5: ReadFile on an invalid compound file -/

/-- C5: when the input is not a valid compound (OLE) file, `ReadFile`
reports the container-level failure as an error naming the file, hands no
stream to `ReadElement` (no decoding), and returns False. -/
theorem spec2_c5_invalidContainer (env : OleEnv) (h : env.isOle = false) :
    (ReadFile env).ok = false
    ∧ (ReadFile env).readElements = []
    ∧ (ReadFile env).errors = [notOleError env.infile] := by
  simp [ReadFile, h]

/-- C5 witness: a concrete non-OLE environment. -/
theorem spec2_c5_witness :
    (ReadFile { isOle := false, infile := "broken.ipt",
                elements := [["RSeDb"], ["Workbook"]] }).ok = false
    ∧ (ReadFile { isOle := false, infile := "broken.ipt",
                  elements := [["RSeDb"], ["Workbook"]] }).readElements = []
    ∧ (ReadFile { isOle := false, infile := "broken.ipt",
                  elements := [["RSeDb"], ["Workbook"]] }).errors =
        [notOleError "broken.ipt"] :=
  spec2_c5_invalidContainer _ rfl

/-! ## C9: length-prefixed reference lists -/

theorem readListLoop_xref (data : List Nat) :
    ∀ cnt node i j acc, i + 4 * cnt ≤ data.length →
      ∃ n', readListLoop (xrefElem data) cnt node i j acc =
        some (n', i + 4 * cnt, acc ++ crossRefsFrom data i j cnt) := by
  intro cnt
  induction cnt with
  | zero =>
    intro node i j acc _h
    exact ⟨node, by simp [readListLoop, crossRefsFrom]⟩
  | succ c ih =>
    intro node i j acc h
    have h1 : getUInt16 data i = some (le16 data i, i + 2) :=
      getUInt16_of_le (by omega)
    have h2 : getUInt16 data (i + 2) = some (le16 data (i + 2), i + 2 + 2) :=
      getUInt16_of_le (by omega)
    rw [show i + 2 + 2 = i + 4 from by omega] at h2
    by_cases hp : 0 < le16 data (i + 2)
    · have helem : xrefElem data node i j =
          some (some { seq := le16 data i, index := le16 data (i + 2),
                       type := NodeRefType.cross, number := j },
            { node with childIndexes := node.childIndexes ++
                [{ seq := le16 data i, index := le16 data (i + 2),
                   type := NodeRefType.cross, number := j }] }, i + 4) := by
        simp [xrefElem, ReadNodeRef, h1, h2, Nat.pos_iff_ne_zero.mp hp]
      have e1 : mkRef data i NodeRefType.cross j =
          some { seq := le16 data i, index := le16 data (i + 2),
                 type := NodeRefType.cross, number := j } := by
        simp [mkRef, hp]
      obtain ⟨n', hrec⟩ := ih
        { node with childIndexes := node.childIndexes ++
            [{ seq := le16 data i, index := le16 data (i + 2),
               type := NodeRefType.cross, number := j }] }
        (i + 4) (j + 1)
        (acc ++ [some { seq := le16 data i, index := le16 data (i + 2),
                        type := NodeRefType.cross, number := j }])
        (by omega)
      refine ⟨n', ?_⟩
      rw [show i + 4 * (c + 1) = i + 4 + 4 * c from by omega]
      simp only [readListLoop, helem]
      rw [hrec]
      simp [crossRefsFrom, e1, List.append_assoc]
    · have hz : le16 data (i + 2) = 0 := by omega
      have helem : xrefElem data node i j = some (none, node, i + 4) := by
        simp [xrefElem, ReadNodeRef, h1, h2, hz]
      have e1 : mkRef data i NodeRefType.cross j = none := by
        simp [mkRef, hz]
      obtain ⟨n', hrec⟩ := ih node (i + 4) (j + 1) (acc ++ [none]) (by omega)
      refine ⟨n', ?_⟩
      rw [show i + 4 * (c + 1) = i + 4 + 4 * c from by omega]
      simp only [readListLoop, helem]
      rw [hrec]
      simp [crossRefsFrom, e1, List.append_assoc]

theorem readListLoop_refU32 (data : List Nat) :
    ∀ cnt node i j acc, i + 8 * cnt ≤ data.length →
      ∃ n', readListLoop (refU32Elem data) cnt node i j acc =
        some (n', i + 8 * cnt, acc ++ refU32sFrom data i j cnt) := by
  intro cnt
  induction cnt with
  | zero =>
    intro node i j acc _h
    exact ⟨node, by simp [readListLoop, refU32sFrom]⟩
  | succ c ih =>
    intro node i j acc h
    have h1 : getUInt16 data i = some (le16 data i, i + 2) :=
      getUInt16_of_le (by omega)
    have h2 : getUInt16 data (i + 2) = some (le16 data (i + 2), i + 2 + 2) :=
      getUInt16_of_le (by omega)
    rw [show i + 2 + 2 = i + 4 from by omega] at h2
    have h3 : getUInt32 data (i + 4) = some (le32 data (i + 4), i + 4 + 4) :=
      getUInt32_of_le (by omega)
    rw [show i + 4 + 4 = i + 8 from by omega] at h3
    by_cases hp : 0 < le16 data (i + 2)
    · have helem : refU32Elem data node i j =
          some ((some { seq := le16 data i, index := le16 data (i + 2),
                        type := NodeRefType.cross, number := j }, le32 data (i + 4)),
            { node with childIndexes := node.childIndexes ++
                [{ seq := le16 data i, index := le16 data (i + 2),
                   type := NodeRefType.cross, number := j }] }, i + 8) := by
        simp [refU32Elem, ReadNodeRef, h1, h2, h3, hp, Nat.pos_iff_ne_zero.mp hp]
      have e1 : mkRef data i NodeRefType.cross j =
          some { seq := le16 data i, index := le16 data (i + 2),
                 type := NodeRefType.cross, number := j } := by
        simp [mkRef, hp]
      obtain ⟨n', hrec⟩ := ih
        { node with childIndexes := node.childIndexes ++
            [{ seq := le16 data i, index := le16 data (i + 2),
               type := NodeRefType.cross, number := j }] }
        (i + 8) (j + 1)
        (acc ++ [(some { seq := le16 data i, index := le16 data (i + 2),
                         type := NodeRefType.cross, number := j }, le32 data (i + 4))])
        (by omega)
      refine ⟨n', ?_⟩
      rw [show i + 8 * (c + 1) = i + 8 + 8 * c from by omega]
      simp only [readListLoop, helem]
      rw [hrec]
      simp [refU32sFrom, e1, List.append_assoc]
    · have hz : le16 data (i + 2) = 0 := by omega
      have helem : refU32Elem data node i j =
          some ((none, le32 data (i + 4)), node, i + 8) := by
        simp [refU32Elem, ReadNodeRef, h1, h2, h3, hz]
      have e1 : mkRef data i NodeRefType.cross j = none := by
        simp [mkRef, hz]
      obtain ⟨n', hrec⟩ := ih node (i + 8) (j + 1)
        (acc ++ [(none, le32 data (i + 4))]) (by omega)
      refine ⟨n', ?_⟩
      rw [show i + 8 * (c + 1) = i + 8 + 8 * c from by omega]
      simp only [readListLoop, helem]
      rw [hrec]
      simp [refU32sFrom, e1, List.append_assoc]

/-- C9: a length-prefixed reference list with 32-bit count 0 decodes to an
empty list stored under the field name — not an error, not null — with the
offset advanced exactly past the 4-byte count; for positive counts the
stored list holds the decoded elements in buffer order (`crossRefsFrom` /
`refU32sFrom` enumerate the buffer positions in increasing order); the
sibling `ReadRefU32List` behaves the same with 8-byte elements. -/
theorem spec2_c9_refLists (data : List Nat) (node : DCNode) (offset : Nat)
    (name : String) (cnt : Nat) (hcnt : le32 data offset = cnt) :
    (offset + 4 + 4 * cnt ≤ data.length →
      ∃ n', ReadRefList data node offset name =
          some (n', offset + 4 + 4 * cnt)
        ∧ n'.get name =
            some (Value.vRefList (crossRefsFrom data (offset + 4) 0 cnt)))
    ∧ (cnt = 0 → offset + 4 ≤ data.length →
      ReadRefList data node offset name =
        some (node.set name (Value.vRefList []), offset + 4))
    ∧ (offset + 4 + 8 * cnt ≤ data.length →
      ∃ n', ReadRefU32List data node offset name =
          some (n', offset + 4 + 8 * cnt)
        ∧ n'.get name =
            some (Value.vRefU32List (refU32sFrom data (offset + 4) 0 cnt)))
    ∧ (cnt = 0 → offset + 4 ≤ data.length →
      ReadRefU32List data node offset name =
        some (node.set name (Value.vRefU32List []), offset + 4)) := by
  refine ⟨?_, ?_, ?_, ?_⟩
  · intro hlen
    have hg : getUInt32 data offset = some (cnt, offset + 4) := by
      rw [getUInt32_of_le (by omega), hcnt]
    obtain ⟨n', hloop⟩ := readListLoop_xref data cnt node (offset + 4) 0 []
      (by omega)
    refine ⟨n'.set name (Value.vRefList (crossRefsFrom data (offset + 4) 0 cnt)), ?_, ?_⟩
    · simp [ReadRefList, hg, hloop]
    · exact set_get_self _ _ _
  · intro hz hlen
    subst hz
    have hg : getUInt32 data offset = some (0, offset + 4) := by
      rw [getUInt32_of_le (by omega), hcnt]
    simp [ReadRefList, hg, readListLoop]
  · intro hlen
    have hg : getUInt32 data offset = some (cnt, offset + 4) := by
      rw [getUInt32_of_le (by omega), hcnt]
    obtain ⟨n', hloop⟩ := readListLoop_refU32 data cnt node (offset + 4) 0 []
      (by omega)
    refine ⟨n'.set name (Value.vRefU32List (refU32sFrom data (offset + 4) 0 cnt)), ?_, ?_⟩
    · simp [ReadRefU32List, hg, hloop]
    · exact set_get_self _ _ _
  · intro hz hlen
    subst hz
    have hg : getUInt32 data offset = some (0, offset + 4) := by
      rw [getUInt32_of_le (by omega), hcnt]
    simp [ReadRefU32List, hg, readListLoop]

/-- C9 witness: a two-element list — one queued reference, one null — read
in buffer order, and the empty-count cases. -/
theorem spec2_c9_witness :
    (∃ n', ReadRefList [2, 0, 0, 0, 5, 0, 7, 0, 9, 0, 0, 0] initNode 0 "xs" =
        some (n', 12)
      ∧ n'.get "xs" = some (Value.vRefList
          (crossRefsFrom [2, 0, 0, 0, 5, 0, 7, 0, 9, 0, 0, 0] 4 0 2)))
    ∧ ReadRefList [0, 0, 0, 0] initNode 0 "xs" =
        some (initNode.set "xs" (Value.vRefList []), 4)
    ∧ ReadRefU32List [0, 0, 0, 0] initNode 0 "ys" =
        some (initNode.set "ys" (Value.vRefU32List []), 4) := by
  refine ⟨?_, ?_, ?_⟩
  · exact (spec2_c9_refLists [2, 0, 0, 0, 5, 0, 7, 0, 9, 0, 0, 0] initNode 0
      "xs" 2 (by decide)).1 (by decide)
  · exact (spec2_c9_refLists [0, 0, 0, 0] initNode 0 "xs" 0 (by decide)).2.1
      rfl (by decide)
  · exact (spec2_c9_refLists [0, 0, 0, 0] initNode 0 "ys" 0
      (by decide)).2.2.2 rfl (by decide)

/-! ## Per-primitive decomposition lemmas -/

theorem getUInt16_some {data : List Nat} {o : Nat} {p : Nat × Nat}
    (h : getUInt16 data o = some p) : p = (le16 data o, o + 2) := by
  unfold getUInt16 at h
  split at h
  · exact (Option.some.inj h).symm
  · simp at h

theorem getUInt32_some {data : List Nat} {o : Nat} {p : Nat × Nat}
    (h : getUInt32 data o = some p) : p = (le32 data o, o + 4) := by
  unfold getUInt32 at h
  split at h
  · exact (Option.some.inj h).symm
  · simp at h

theorem mapRead_shape {β : Type} {g : Option (β × Nat)} {mk : β → Value}
    {n n' : DCNode} {a : String} {j : Nat}
    (h : (g.map (fun p => (DCNode.set n a (mk p.1), p.2))) = some (n', j)) :
    ∃ b, g = some (b, j) ∧ n' = n.set a (mk b) := by
  cases g with
  | none => simp at h
  | some p =>
    cases p with
    | mk b k =>
      simp only [Option.map_some', Option.some.injEq, Prod.mk.injEq] at h
      exact ⟨b, by rw [h.2], h.1.symm⟩

theorem set_shape_parts {n n' : DCNode} {a : String} {v : Value}
    (h : n' = n.set a v) :
    n'.get a = some v ∧ (∀ b, a ≠ b → n'.get b = n.get b)
    ∧ n'.name = n.name ∧ n'.attrs = (a, v) :: n.attrs := by
  subst h
  exact ⟨set_get_self n a v, fun b hb => set_get_ne n a b v hb, rfl, rfl⟩

theorem readU32_parts {data : List Nat} {n n' : DCNode} {i j : Nat} {a : String}
    (h : readU32 data n i a = some (n', j)) :
    n' = n.set a (Value.vU32 (le32 data i)) ∧ j = i + 4 := by
  obtain ⟨b, hg, hn⟩ := mapRead_shape h
  obtain hp := getUInt32_some hg
  simp only [Prod.mk.injEq] at hp
  exact ⟨by rw [hn, hp.1], hp.2⟩

theorem readS32_parts {data : List Nat} {n n' : DCNode} {i j : Nat} {a : String}
    (h : readS32 data n i a = some (n', j)) :
    ∃ v, n' = n.set a (Value.vS32 v) ∧ j = i + 4 := by
  unfold readS32 getSInt32 at h
  cases hg : getUInt32 data i with
  | none => rw [hg] at h; simp at h
  | some p =>
    rw [hg] at h
    obtain hp := getUInt32_some hg
    simp only [Option.map_some', Option.some.injEq, Prod.mk.injEq] at h
    refine ⟨toSigned32 p.1, h.1.symm, ?_⟩
    rw [← h.2, hp]

theorem readS16_parts {data : List Nat} {n n' : DCNode} {i j : Nat} {a : String}
    (h : readS16 data n i a = some (n', j)) :
    ∃ v, n' = n.set a (Value.vS16 v) ∧ j = i + 2 := by
  unfold readS16 getSInt16 at h
  cases hg : getUInt16 data i with
  | none => rw [hg] at h; simp at h
  | some p =>
    rw [hg] at h
    obtain hp := getUInt16_some hg
    simp only [Option.map_some', Option.some.injEq, Prod.mk.injEq] at h
    refine ⟨toSigned16 p.1, h.1.symm, ?_⟩
    rw [← h.2, hp]

theorem readEnum16_parts {data : List Nat} {n n' : DCNode} {i j : Nat}
    {a : String} (h : readEnum16 data n i a = some (n', j)) :
    ∃ v, n' = n.set a (Value.vEnum v) ∧ j = i + 2 := by
  obtain ⟨b, hg, hn⟩ := mapRead_shape h
  obtain hp := getUInt16_some hg
  simp only [Prod.mk.injEq] at hp
  exact ⟨b, by rw [hn], hp.2⟩

theorem readF64_parts {data : List Nat} {n n' : DCNode} {i j : Nat} {a : String}
    (h : readF64 data n i a = some (n', j)) :
    n' = n.set a (Value.vF64 (le64 data i)) ∧ j = i + 8 := by
  obtain ⟨b, hg, hn⟩ := mapRead_shape h
  unfold getFloat64 at hg
  split at hg
  · obtain hp := Option.some.inj hg
    simp only [Prod.mk.injEq] at hp
    exact ⟨by rw [hn, hp.1], hp.2.symm⟩
  · simp at hg

theorem readUUID_parts {data : List Nat} {n n' : DCNode} {i j : Nat} {a : String}
    (h : readUUID data n i a = some (n', j)) :
    ∃ v, n' = n.set a (Value.vUuid v) ∧ j = i + 16 := by
  obtain ⟨b, hg, hn⟩ := mapRead_shape h
  unfold getUUIDBytes at hg
  split at hg
  · obtain hp := Option.some.inj hg
    simp only [Prod.mk.injEq] at hp
    exact ⟨b, by rw [hn], hp.2.symm⟩
  · simp at hg

theorem ReadNodeRef_parts {data : List Nat} {n m : DCNode} {o num j : Nat}
    {t : NodeRefType} {r : Option NodeRef}
    (h : ReadNodeRef data n o num t = some (r, m, j)) :
    m.attrs = n.attrs ∧ m.name = n.name ∧ m.typeName = n.typeName
    ∧ j = o + 4 := by
  by_cases hb1 : o + 2 ≤ data.length
  · by_cases hb2 : o + 2 + 2 ≤ data.length
    · have h1 := getUInt16_of_le hb1
      have h2 := getUInt16_of_le hb2
      simp only [ReadNodeRef, h1, h2] at h
      split at h
      · simp only [Option.some.injEq, Prod.mk.injEq] at h
        obtain ⟨_, hm, hj⟩ := h
        rw [← hm]
        refine ⟨rfl, rfl, rfl, ?_⟩
        omega
      · simp only [Option.some.injEq, Prod.mk.injEq] at h
        obtain ⟨_, hm, hj⟩ := h
        rw [← hm]
        refine ⟨rfl, rfl, rfl, ?_⟩
        omega
    · have hz : ReadNodeRef data n o num t = none := by
        simp [ReadNodeRef, getUInt16, hb1, hb2]
      rw [hz] at h
      simp at h
  · have hz : ReadNodeRef data n o num t = none := by
      simp [ReadNodeRef, getUInt16, hb1]
    rw [hz] at h
    simp at h

theorem readNodeRefA_parts {data : List Nat} {n n' : DCNode} {i j : Nat}
    {a : String} {t : NodeRefType}
    (h : readNodeRefA data n i a t = some (n', j)) :
    ∃ r, (n'.get a = some (Value.vRef r)
      ∧ (∀ b, a ≠ b → n'.get b = n.get b) ∧ n'.name = n.name ∧ j = i + 4) := by
  unfold readNodeRefA at h
  cases hg : ReadNodeRef data n i 0 t with
  | none => rw [hg] at h; simp at h
  | some q =>
    rw [hg] at h
    obtain ⟨r0, m, j0⟩ := q
    obtain ⟨hattrs, hname, _, hj⟩ := ReadNodeRef_parts hg
    simp only [Option.some.injEq, Prod.mk.injEq] at h
    obtain ⟨hm, hjj⟩ := h
    refine ⟨r0, ?_, ?_, ?_, ?_⟩
    · rw [← hm]; exact set_get_self m a _
    · intro b hb
      rw [← hm, set_get_ne m a b _ hb]
      simp only [DCNode.get]
      rw [hattrs]
    · rw [← hm, set_name, hname]
    · rw [← hjj, hj]

theorem readLen32Text16N_parts {data : List Nat} {n n' : DCNode} {i j : Nat}
    (h : readLen32Text16N data n i = some (n', j)) :
    n'.attrs = n.attrs ∧ n'.name = String.mk (utf16leChars data (i + 4) (le32 data i)) := by
  cases hg2 : getUInt32 data i with
  | none => simp [readLen32Text16N, getLen32Text16, hg2] at h
  | some q =>
    obtain ⟨cnt, i2⟩ := q
    have hq := getUInt32_some hg2
    simp only [Prod.mk.injEq] at hq
    by_cases hb : i2 + 2 * cnt ≤ data.length
    · simp only [readLen32Text16N, getLen32Text16, hg2, hb, if_true,
        Option.map_some', Option.some.injEq, Prod.mk.injEq] at h
      obtain ⟨hm, _hj⟩ := h
      rw [← hm]
      refine ⟨rfl, ?_⟩
      rw [hq.1, hq.2]
    · simp [readLen32Text16N, getLen32Text16, hg2, hb] at h

/-! ## C7: ContentHeader flags and fields -/

/-- C7: for every node decoded through `ReadContentHeader`, the node's
`visible` flag is set exactly when bit 0x400 of the decoded flags word is,
and `dimensioningVisible` exactly when bit 0x800000 is; the header also
stores the label ChildRef, the ParentRef and the index field. -/
theorem spec2_c7_contentHeader (data : List Nat) (node n' : DCNode) (i' : Nat)
    (h : ReadContentHeader data node = some (n', i')) :
    n'.visible = decide (0 < Nat.land (n'.getU32 "flags") 0x400)
    ∧ n'.dimensioningVisible = decide (0 < Nat.land (n'.getU32 "flags") 0x800000)
    ∧ (n'.get "label").isSome
    ∧ (n'.get "parent").isSome
    ∧ (n'.get "index").isSome := by
  unfold ReadContentHeader at h
  obtain ⟨n5, i5, h4, hfin⟩ := step_eq_some.mp h
  obtain ⟨n4, i4, h3, hidx⟩ := step_eq_some.mp h4
  obtain ⟨n3, i3, h2, hpar⟩ := step_eq_some.mp h3
  obtain ⟨n2, i2, h1, hflg⟩ := step_eq_some.mp h2
  obtain ⟨n1, i1, _h0, hlab⟩ := step_eq_some.mp h1
  simp only at hlab hflg hpar hidx hfin
  simp only [Option.some.injEq, Prod.mk.injEq] at hfin
  obtain ⟨hn', _hi'⟩ := hfin
  subst hn'
  obtain ⟨r1, hl1, hl2, _, _⟩ := readNodeRefA_parts hlab
  obtain ⟨hf1, _⟩ := readU32_parts hflg
  obtain ⟨r2, hp1, hp2, _, _⟩ := readNodeRefA_parts hpar
  obtain ⟨hi1, _⟩ := readU32_parts hidx
  have e3 : n3.get "label" = some (Value.vRef r1) := by
    rw [hf1, set_get_ne _ _ _ _ (by decide)]
    exact hl1
  have e4 : n4.get "label" = some (Value.vRef r1) := by
    rw [hp2 "label" (by decide)]
    exact e3
  have e5 : n5.get "label" = some (Value.vRef r1) := by
    rw [hi1, set_get_ne _ _ _ _ (by decide)]
    exact e4
  have p4 : n4.get "parent" = some (Value.vRef r2) := hp1
  have p5 : n5.get "parent" = some (Value.vRef r2) := by
    rw [hi1, set_get_ne _ _ _ _ (by decide)]
    exact p4
  have x5 : n5.get "index" = some (Value.vU32 (le32 data i4)) := by
    rw [hi1]
    exact set_get_self _ _ _
  refine ⟨?_, ?_, ?_, ?_, ?_⟩
  · simp [DCNode.set, DCNode.getU32, DCNode.get, getAttr]
  · simp [DCNode.set, DCNode.getU32, DCNode.get, getAttr]
  · rw [set_get_ne _ _ _ _ (by decide)]
    have : ({ n5 with
        visible := decide (0 < Nat.land (n5.getU32 "flags") 0x400),
        dimensioningVisible := decide (0 < Nat.land (n5.getU32 "flags") 0x800000) } :
          DCNode).get "label" = n5.get "label" := rfl
    rw [this, e5]
    rfl
  · rw [set_get_ne _ _ _ _ (by decide)]
    have : ({ n5 with
        visible := decide (0 < Nat.land (n5.getU32 "flags") 0x400),
        dimensioningVisible := decide (0 < Nat.land (n5.getU32 "flags") 0x800000) } :
          DCNode).get "parent" = n5.get "parent" := rfl
    rw [this, p5]
    rfl
  · rw [set_get_ne _ _ _ _ (by decide)]
    have : ({ n5 with
        visible := decide (0 < Nat.land (n5.getU32 "flags") 0x400),
        dimensioningVisible := decide (0 < Nat.land (n5.getU32 "flags") 0x800000) } :
          DCNode).get "index" = n5.get "index" := rfl
    rw [this, x5]
    rfl

/-- C7 witness: a 28-byte content header whose flags word is exactly 0x400 —
the decoded node is visible and carries the label/parent/index fields. -/
theorem spec2_c7_witness :
    ReadContentHeader c7Buf initNode = some (c7Node, 28)
    ∧ c7Node.visible = decide (0 < Nat.land (c7Node.getU32 "flags") 0x400)
    ∧ (c7Node.get "label").isSome
    ∧ (c7Node.get "parent").isSome
    ∧ (c7Node.get "index").isSome := by
  have hp : ReadContentHeader c7Buf initNode = some (c7Node, 28) := by decide
  have H := spec2_c7_contentHeader c7Buf initNode c7Node 28 hp
  exact ⟨hp, H.1, H.2.2.1, H.2.2.2.1, H.2.2.2.2⟩

/-! ## Attribute-preservation through list loops and composite headers -/

theorem attrs_eq_get {n m : DCNode} (h : m.attrs = n.attrs) (b : String) :
    m.get b = n.get b := by
  simp only [DCNode.get]
  rw [h]

theorem readListLoop_attrs {α : Type}
    {elem : DCNode → Nat → Nat → Option (α × DCNode × Nat)}
    (helem : ∀ n i j x n2 i2, elem n i j = some (x, n2, i2) →
      n2.attrs = n.attrs ∧ n2.name = n.name) :
    ∀ rem n i j acc n' i' lst,
      readListLoop elem rem n i j acc = some (n', i', lst) →
      n'.attrs = n.attrs ∧ n'.name = n.name := by
  intro rem
  induction rem with
  | zero =>
    intro n i j acc n' i' lst h
    simp only [readListLoop, Option.some.injEq, Prod.mk.injEq] at h
    rw [← h.1]
    exact ⟨rfl, rfl⟩
  | succ c ih =>
    intro n i j acc n' i' lst h
    cases he : elem n i j with
    | none =>
      simp only [readListLoop, he] at h
      exact Option.noConfusion h
    | some q =>
      obtain ⟨x, n2, i2⟩ := q
      simp only [readListLoop, he] at h
      obtain ⟨e1, e2⟩ := helem n i j x n2 i2 he
      obtain ⟨f1, f2⟩ := ih n2 i2 (j + 1) (acc ++ [x]) n' i' lst h
      exact ⟨by rw [f1, e1], by rw [f2, e2]⟩

theorem xrefElem_pres {data : List Nat} {n n2 : DCNode} {i j i2 : Nat}
    {x : Option NodeRef} (h : xrefElem data n i j = some (x, n2, i2)) :
    n2.attrs = n.attrs ∧ n2.name = n.name := by
  obtain ⟨h1, h2, _, _⟩ := ReadNodeRef_parts h
  exact ⟨h1, h2⟩

theorem refU32Elem_pres {data : List Nat} {n n2 : DCNode} {i j i2 : Nat}
    {x : Option NodeRef × Nat} (h : refU32Elem data n i j = some (x, n2, i2)) :
    n2.attrs = n.attrs ∧ n2.name = n.name := by
  unfold refU32Elem at h
  cases hg : ReadNodeRef data n i j NodeRefType.cross with
  | none => rw [hg] at h; simp at h
  | some q =>
    obtain ⟨r, m, k⟩ := q
    rw [hg] at h
    obtain ⟨h1, h2, _, _⟩ := ReadNodeRef_parts hg
    cases hv : getUInt32 data k with
    | none =>
      simp only [hv] at h
      exact Option.noConfusion h
    | some p =>
      simp only [hv, Option.some.injEq, Prod.mk.injEq] at h
      rw [← h.2.1]
      exact ⟨h1, h2⟩

theorem refF64Elem_pres {data : List Nat} {n n2 : DCNode} {i j i2 : Nat}
    {x : Option NodeRef × Nat} (h : refF64Elem data n i j = some (x, n2, i2)) :
    n2.attrs = n.attrs ∧ n2.name = n.name := by
  unfold refF64Elem at h
  cases hg : ReadNodeRef data n i j NodeRefType.cross with
  | none => rw [hg] at h; simp at h
  | some q =>
    obtain ⟨r, m, k⟩ := q
    rw [hg] at h
    obtain ⟨h1, h2, _, _⟩ := ReadNodeRef_parts hg
    cases hv : getFloat64 data k with
    | none =>
      simp only [hv] at h
      exact Option.noConfusion h
    | some p =>
      simp only [hv, Option.some.injEq, Prod.mk.injEq] at h
      rw [← h.2.1]
      exact ⟨h1, h2⟩

theorem readList6Key_parts {data : List Nat} {n n' : DCNode} {i j : Nat}
    {a : String} (h : readList6Key data n i a = some (n', j)) :
    (n'.get a).isSome ∧ (∀ b, a ≠ b → n'.get b = n.get b)
    ∧ n'.name = n.name := by
  unfold readList6Key at h
  cases hg : getUInt32 data i with
  | none => rw [hg] at h; simp at h
  | some p =>
    obtain ⟨cnt, i2⟩ := p
    simp only [hg] at h
    cases hl : readListLoop (refU32Elem data) cnt n i2 0 [] with
    | none =>
      simp only [hl] at h
      exact Option.noConfusion h
    | some q =>
      obtain ⟨n2, i3, lst⟩ := q
      simp only [hl, Option.some.injEq, Prod.mk.injEq] at h
      obtain ⟨hattrs, hname⟩ := readListLoop_attrs
        (fun n i j x n2 i2 he => refU32Elem_pres he) cnt n i2 0 [] n2 i3 lst hl
      rw [← h.1]
      refine ⟨?_, ?_, ?_⟩
      · rw [set_get_self]
        rfl
      · intro b hb
        rw [set_get_ne _ _ _ _ hb]
        exact attrs_eq_get hattrs b
      · rw [set_name]
        exact hname

theorem readList6F64_parts {data : List Nat} {n n' : DCNode} {i j : Nat}
    {a : String} (h : readList6F64 data n i a = some (n', j)) :
    (n'.get a).isSome ∧ (∀ b, a ≠ b → n'.get b = n.get b)
    ∧ n'.name = n.name := by
  unfold readList6F64 at h
  cases hg : getUInt32 data i with
  | none => rw [hg] at h; simp at h
  | some p =>
    obtain ⟨cnt, i2⟩ := p
    simp only [hg] at h
    cases hl : readListLoop (refF64Elem data) cnt n i2 0 [] with
    | none =>
      simp only [hl] at h
      exact Option.noConfusion h
    | some q =>
      obtain ⟨n2, i3, lst⟩ := q
      simp only [hl, Option.some.injEq, Prod.mk.injEq] at h
      obtain ⟨hattrs, hname⟩ := readListLoop_attrs
        (fun n i j x n2 i2 he => refF64Elem_pres he) cnt n i2 0 [] n2 i3 lst hl
      rw [← h.1]
      refine ⟨?_, ?_, ?_⟩
      · rw [set_get_self]
        rfl
      · intro b hb
        rw [set_get_ne _ _ _ _ hb]
        exact attrs_eq_get hattrs b
      · rw [set_name]
        exact hname

theorem readHeader0_parts {data : List Nat} {node n1 : DCNode} {i1 : Nat}
    (h : readHeader0 data node = some (n1, i1)) :
    n1 = (node.set "hdr_m0" (Value.vU32 (le32 data 0))).set "hdr_m1"
      (Value.vU32 (le32 data 4)) ∧ i1 = 8 := by
  unfold readHeader0 at h
  cases hm : readU32 data node 0 "hdr_m0" with
  | none => rw [hm] at h; simp at h
  | some p =>
    obtain ⟨na, ia⟩ := p
    rw [hm] at h
    obtain ⟨ha1, ha2⟩ := readU32_parts hm
    obtain ⟨hb1, hb2⟩ := readU32_parts h
    subst ha1
    constructor
    · rw [hb1, ha2]
    · rw [hb2, ha2]

theorem ReadContentHeader_preserve {data : List Nat} {node n' : DCNode}
    {i' : Nat} (h : ReadContentHeader data node = some (n', i'))
    (b : String) (hb : b ≠ "hdr_m0" ∧ b ≠ "hdr_m1" ∧ b ≠ "label" ∧ b ≠ "flags"
      ∧ b ≠ "parent" ∧ b ≠ "index" ∧ b ≠ "ContentHeader") :
    n'.get b = node.get b ∧ n'.name = node.name := by
  unfold ReadContentHeader at h
  obtain ⟨n5, i5, h4, hfin⟩ := step_eq_some.mp h
  obtain ⟨n4, i4, h3, hidx⟩ := step_eq_some.mp h4
  obtain ⟨n3, i3, h2, hpar⟩ := step_eq_some.mp h3
  obtain ⟨n2, i2, h1, hflg⟩ := step_eq_some.mp h2
  obtain ⟨n1, i1, h0, hlab⟩ := step_eq_some.mp h1
  simp only at hlab hflg hpar hidx hfin
  simp only [Option.some.injEq, Prod.mk.injEq] at hfin
  obtain ⟨hn', _hi'⟩ := hfin
  subst hn'
  obtain ⟨hh1, _⟩ := readHeader0_parts h0
  obtain ⟨r1, _, hl2, hl3, _⟩ := readNodeRefA_parts hlab
  obtain ⟨hf1, _⟩ := readU32_parts hflg
  obtain ⟨r2, _, hp2, hp3, _⟩ := readNodeRefA_parts hpar
  obtain ⟨hi1, _⟩ := readU32_parts hidx
  constructor
  · rw [set_get_ne _ _ _ _ (Ne.symm hb.2.2.2.2.2.2)]
    have tr : ({ n5 with
        visible := decide (0 < Nat.land (n5.getU32 "flags") 0x400),
        dimensioningVisible := decide (0 < Nat.land (n5.getU32 "flags") 0x800000) } :
          DCNode).get b = n5.get b := rfl
    rw [tr, hi1, set_get_ne _ _ _ _ (Ne.symm hb.2.2.2.2.2.1),
      hp2 b (Ne.symm hb.2.2.2.2.1), hf1,
      set_get_ne _ _ _ _ (Ne.symm hb.2.2.2.1), hl2 b (Ne.symm hb.2.2.1), hh1,
      set_get_ne _ _ _ _ (Ne.symm hb.2.1), set_get_ne _ _ _ _ (Ne.symm hb.1)]
  · have tr : ({ n5 with
        visible := decide (0 < Nat.land (n5.getU32 "flags") 0x400),
        dimensioningVisible := decide (0 < Nat.land (n5.getU32 "flags") 0x800000) } :
          DCNode).name = n5.name := rfl
    rw [set_name, tr, hi1, set_name, hp3, hf1, set_name, hl3, hh1, set_name,
      set_name]

/-! ## C8: the 2012 version gate of ReadConstraintHeader2D -/

/-- C8: for every record read through `ReadConstraintHeader2D`, file
versions after 2012 read the two version-gated list fields `lst0` and
`lst1` from the buffer (both present on the decoded node), while versions
up to 2012 skip fixed-size blocks instead and read neither field (the
node's `lst0`/`lst1` bindings are exactly those of the input node, i.e.
absent when decoding starts on a fresh node): the two sides of the 2012
threshold consume different field layouts. -/
theorem spec2_c8_versionGate (fv : Nat) (data : List Nat) (node n' : DCNode)
    (tn : String) (j : Nat)
    (h : ReadConstraintHeader2D fv data node tn = some (n', j)) :
    (2012 < fv → (n'.get "lst0").isSome ∧ (n'.get "lst1").isSome)
    ∧ (fv ≤ 2012 → n'.get "lst0" = node.get "lst0"
        ∧ n'.get "lst1" = node.get "lst1") := by
  unfold ReadConstraintHeader2D at h
  obtain ⟨n4, i4, h3, hrp⟩ := step_eq_some.mp h
  obtain ⟨n3, i3, h2, hvb⟩ := step_eq_some.mp h3
  obtain ⟨n2, i2, h1, hrg⟩ := step_eq_some.mp h2
  obtain ⟨n1, i1, h0, hs32⟩ := step_eq_some.mp h1
  try simp only at hs32
  try simp only at hrg
  try simp only at hvb
  try simp only at hrp
  obtain ⟨rp, _, hrpP, _, _⟩ := readNodeRefA_parts hrp
  constructor
  · intro hfv
    rw [if_pos hfv] at hvb
    obtain ⟨nA, iA, hL0, hL1⟩ := step_eq_some.mp hvb
    try simp only at hL1
    obtain ⟨hA1, hA2, _⟩ := readList6F64_parts hL0
    obtain ⟨hB1, hB2, _⟩ := readList6Key_parts hL1
    constructor
    · rw [hrpP "lst0" (by decide), hB2 "lst0" (by decide)]
      exact hA1
    · rw [hrpP "lst1" (by decide)]
      exact hB1
  · intro hfv
    rw [if_neg (by omega)] at hvb
    simp only [Option.some.injEq, Prod.mk.injEq] at hvb
    obtain ⟨hn4, _⟩ := hvb
    obtain ⟨rg, _, hrgP, _, _⟩ := readNodeRefA_parts hrg
    obtain ⟨vs, hs1, _⟩ := readS32_parts hs32
    have c0 : ∀ b, b ≠ "hdr_m0" ∧ b ≠ "hdr_m1" ∧ b ≠ "label" ∧ b ≠ "flags"
        ∧ b ≠ "parent" ∧ b ≠ "index" ∧ b ≠ "ContentHeader" →
        n1.get b = node.get b := by
      intro b hb
      have := (ReadContentHeader_preserve h0 b hb).1
      rw [this]
      rfl
    constructor
    · rw [hrpP "lst0" (by decide), ← hn4, hrgP "lst0" (by decide), hs1,
        set_get_ne _ _ _ _ (by decide)]
      exact c0 "lst0" (by decide)
    · rw [hrpP "lst1" (by decide), ← hn4, hrgP "lst1" (by decide), hs1,
        set_get_ne _ _ _ _ (by decide)]
      exact c0 "lst1" (by decide)

/-- C8 witness: the same 60-byte buffer decoded on both sides of the 2012
threshold — version 2013 stores both gated lists, version 2012 stores
neither. -/
theorem spec2_c8_witness :
    ((c8NodeA.get "lst0").isSome ∧ (c8NodeA.get "lst1").isSome)
    ∧ (c8NodeB.get "lst0" = initNode.get "lst0"
        ∧ c8NodeB.get "lst1" = initNode.get "lst1") := by
  have hA : ReadConstraintHeader2D 2013 (List.replicate 60 0) initNode "T" =
      some (c8NodeA, 56) := by decide
  have hB : ReadConstraintHeader2D 2012 (List.replicate 60 0) initNode "T" =
      some (c8NodeB, 56) := by decide
  exact ⟨(spec2_c8_versionGate 2013 (List.replicate 60 0) initNode c8NodeA "T"
      56 hA).1 (by omega),
    (spec2_c8_versionGate 2012 (List.replicate 60 0) initNode c8NodeB "T"
      56 hB).2 (by omega)⟩

/-! ## C2: truncated SketchLine decode fails fatally -/

/-- C2: decoding a SketchLine record (`Read_CE52DF3A`: Sketch2D entity
header, points list, version-gated list, then root point x/y and direction
x/y) on a buffer that ends 1 byte short of the 4 trailing float64 fields
(the header part stops at offset `j` and only `j + 31` bytes exist) raises
the fatal node-level decode error (`none`); it never returns a partially
populated node. -/
theorem spec2_c2_truncatedSketchLine (fv : Nat) (data : List Nat)
    (node n1 : DCNode) (j : Nat)
    (hhead : Read_CE52DF3A_head fv data node = some (n1, j))
    (hlen : data.length = j + 31) :
    Read_CE52DF3A fv data node = none := by
  have b1 : j + 8 ≤ data.length := by omega
  have b2 : j + 8 + 8 ≤ data.length := by omega
  have b3 : j + 8 + 8 + 8 ≤ data.length := by omega
  have b4 : ¬ (j + 8 + 8 + 8 + 8 ≤ data.length) := by omega
  unfold Read_CE52DF3A
  rw [hhead]
  simp [step, readF64, getFloat64, b1, b2, b3, b4]

/-- C2 witness: a 95-byte buffer at file version 2012 — the header part
succeeds at offset 64, the 4 trailing float64 fields would need 32 bytes
but only 31 remain, and the decode fails. -/
theorem spec2_c2_witness :
    Read_CE52DF3A 2012 (List.replicate 95 0) initNode = none := by
  have hh : Read_CE52DF3A_head 2012 (List.replicate 95 0) initNode =
      some (c2Node, 64) := by decide
  exact spec2_c2_truncatedSketchLine 2012 (List.replicate 95 0) initNode
    c2Node 64 hh (by decide)

/-! ## C6: the PI parameter-name translation -/

/-- C6: after decoding a Parameter record (`Read_90874D26`) whose decoded
name field is "PI", the node is exposed under the translated name "pi" and
the rename warning is logged; likewise a ParameterConstant record
(`Read_0AA8AF46`) named "PI" exposes "pi" after decode. -/
theorem spec2_c6_piTranslation (data : List Nat) (st : ReaderState)
    (node n1 : DCNode) (j : Nat)
    (hnamed : Read_90874D26_named data node = some (n1, j))
    (hPI : n1.name = "PI") :
    (paramWarning "PI" "pi") ∈ (Read_90874D26 data st node).1.warnings
    ∧ (∀ n' i', (Read_90874D26 data st node).2 = some (n', i') →
        n'.name = "pi")
    ∧ (∀ m1 k, Read_0AA8AF46_pre data node = some (m1, k) → m1.name = "PI" →
        ∃ m', Read_0AA8AF46 data node = some (m', k) ∧ m'.name = "pi") := by
  refine ⟨?_, ?_, ?_⟩
  · simp [Read_90874D26, hnamed, hPI, translateName]
  · intro n' i' hres
    simp only [Read_90874D26, hnamed, hPI, translateName] at hres
    simp only [ite_true, if_true] at hres
    simp at hres
    obtain ⟨m5, k5, h5, hL6⟩ := step_eq_some.mp hres
    obtain ⟨m4, k4, h4, hL5⟩ := step_eq_some.mp h5
    obtain ⟨m3, k3, h3, hL4⟩ := step_eq_some.mp h4
    obtain ⟨m2, k2, h2, hL3⟩ := step_eq_some.mp h3
    obtain ⟨mB, kB, hB, hL2⟩ := step_eq_some.mp h2
    try simp only at hL2
    try simp only at hL3
    try simp only at hL4
    try simp only at hL5
    try simp only at hL6
    obtain ⟨rB, _, _, hnB, _⟩ := readNodeRefA_parts hB
    obtain ⟨r2, _, _, hn2, _⟩ := readNodeRefA_parts hL2
    obtain ⟨hs3, _⟩ := readF64_parts hL3
    obtain ⟨hs4, _⟩ := readF64_parts hL4
    obtain ⟨v5, hs5, _⟩ := readEnum16_parts hL5
    obtain ⟨v6, hs6, _⟩ := readS16_parts hL6
    rw [hs6, set_name, hs5, set_name, hs4, set_name, hs3, set_name, hn2, hnB]
    try rfl
  · intro m1 k hpre hname
    unfold Read_0AA8AF46
    rw [hpre, step_some]
    rw [if_pos hname]
    exact ⟨{ m1 with name := "pi" }, rfl, rfl⟩

/-- C6 witness: the 80-byte "PI" Parameter buffer — the decode logs the
rename warning and the decoded node is named "pi". -/
theorem spec2_c6_witness :
    paramWarning "PI" "pi" ∈ (Read_90874D26 c6Buf {} initNode).1.warnings
    ∧ (∀ n' i', (Read_90874D26 c6Buf {} initNode).2 = some (n', i') →
        n'.name = "pi") := by
  have hh : Read_90874D26_named c6Buf initNode = some (c6Node, 48) := by decide
  exact ⟨(spec2_c6_piTranslation c6Buf {} initNode c6Node 48 hh (by decide)).1,
    (spec2_c6_piTranslation c6Buf {} initNode c6Node 48 hh (by decide)).2.1⟩

/-! ## C4: decoding the same buffer twice is deterministic -/

theorem decodeOne_congr (fv : Nat) (s1 s2 : ReaderState) (key : Nat)
    (data : List Nat) (hty : s1.type = s2.type) :
    (decodeOne fv s1 key data).2 = (decodeOne fv s2 key data).2
    ∧ (decodeOne fv s1 key data).1.type = (decodeOne fv s2 key data).1.type := by
  unfold decodeOne
  by_cases k1 : key = 0x90874D16
  · simp [k1, Read_90874D16]
  · by_cases k2 : key = 0x90874D46
    · simp [k1, k2, Read_90874D46]
    · by_cases k3 : key = 0x452121B6
      · simp [k1, k2, k3, hty]
      · by_cases k4 : key = 0x90874D26
        · simp only [k1, k2, k3, k4, if_true, if_false]
          unfold Read_90874D26
          cases hn : Read_90874D26_named data initNode with
          | none => simp [hn, hty]
          | some p =>
            obtain ⟨n1, i⟩ := p
            by_cases hc : translateName n1.name ≠ n1.name
            · simp [hn, hc, hty]
            · simp [hn, hc, hty]
        · simp [k1, k2, k3, k4, hty]

theorem decodeSegment_graph_congr (fv : Nat) :
    ∀ (entries : List (Nat × List Nat)) (s1 s2 : ReaderState),
      s1.type = s2.type →
      (decodeSegment fv entries s1).1 = (decodeSegment fv entries s2).1 := by
  intro entries
  induction entries with
  | nil => intro s1 s2 _h; rfl
  | cons e rest ih =>
    intro s1 s2 h
    obtain ⟨key, data⟩ := e
    obtain ⟨hout, hty⟩ := decodeOne_congr fv s1 s2 key data h
    simp only [decodeSegment, List.cons.injEq]
    exact ⟨hout, ih _ _ hty⟩

/-- C4: decoding the same node table twice with the same `fileVersion`
yields structurally identical node graphs: the graph depends only on the
input entries, the version and the reader's initial document-kind flag —
not on the rest of the reader state (e.g. the accumulated warning log) —
and two runs each starting from a freshly constructed reader
(`decodeTwice`) produce equal graphs. -/
theorem spec2_c4_idempotentDecode (fv : Nat) (entries : List (Nat × List Nat))
    (s1 s2 : ReaderState) (hty : s1.type = s2.type) :
    (decodeSegment fv entries s1).1 = (decodeSegment fv entries s2).1
    ∧ (decodeTwice fv entries).1 = (decodeTwice fv entries).2 :=
  ⟨decodeSegment_graph_congr fv entries s1 s2 hty, rfl⟩

/-- C4 witness: a ModelerTxnMgr entry followed by an unknown-key entry,
decoded from two initial states differing in their warning logs. -/
theorem spec2_c4_witness :
    (decodeSegment 2016 [(0x452121B6, List.replicate 64 0), (7, [])]
        { type := 0, warnings := [] }).1 =
      (decodeSegment 2016 [(0x452121B6, List.replicate 64 0), (7, [])]
        { type := 0, warnings := ["earlier warning"] }).1
    ∧ (decodeTwice 2016 [(0x452121B6, List.replicate 64 0), (7, [])]).1 =
      (decodeTwice 2016 [(0x452121B6, List.replicate 64 0), (7, [])]).2 :=
  spec2_c4_idempotentDecode 2016 [(0x452121B6, List.replicate 64 0), (7, [])]
    { type := 0, warnings := [] } { type := 0, warnings := ["earlier warning"] }
    rfl
